import Mathlib

/-!
# Interview practice client: transcript accumulation and interview session

A shallow embedding of `static/js/speech.js` (class `SpeechRecognitionManager`)
and `static/js/interview.js` (class `InterviewManager`).

Conventions of the embedding

* A JavaScript string is a list of characters (`JsString`).
* Every handler of the page runs to completion before the next one starts, so a
  handler is a function from the state before it to the state after it.
* An `async` method is split at its first `await`: the part that runs when the
  method is invoked is one function, the continuation that runs when the
  awaited response arrives is another one.
* What a handler asks of the host (dialogs, timers, requests, navigation) is
  appended, in program order, to the `effects` list of the state.
* `console.log` and `console.error` lines are not part of the state.
* Time values are whole numbers. `Math.floor` of a quotient and
  `Number.prototype.toString` round as doubles do (`floorOfQuotient`,
  `numberToString`); they are exact on the whole numbers up to `2 ^ 53`.
-/

namespace InterviewPlatform

/-! ## Strings -/

/-- A JavaScript string value, as the list of its code points. Every
character the code tests or inserts (white space, digits, `:`) is one UTF-16
code unit, so lengths and positions agree with JavaScript on them. -/
abbrev JsString := List Char

/-- The code points `String.prototype.trim` strips: ECMAScript `WhiteSpace`
(TAB, VT, FF, ZWNBSP and the Unicode space separators) and `LineTerminator`
(LF, CR, LS, PS). -/
def isJsWhitespace (c : Char) : Bool :=
  let n := c.toNat
  n == 0x09 || n == 0x0A || n == 0x0B || n == 0x0C || n == 0x0D || n == 0x20 ||
  n == 0xA0 || n == 0x1680 || (0x2000 ≤ n && n ≤ 0x200A) || n == 0x2028 ||
  n == 0x2029 || n == 0x202F || n == 0x205F || n == 0x3000 || n == 0xFEFF

/-- The method `String.prototype.trim`: white space is removed from both ends. -/
def jsTrim (s : JsString) : JsString :=
  (s.dropWhile isJsWhitespace).rdropWhile isJsWhitespace

/-- The method `String.prototype.padStart` with a one-character filler. -/
def padStart (s : JsString) (targetLength : Nat) (fill : Char) : JsString :=
  List.replicate (targetLength - s.length) fill ++ s

/-- The decimal digits of a whole number. -/
def decimalDigits (n : Nat) : JsString :=
  Nat.toDigits 10 n

/-- The quotient `a / b` rounded to the nearest whole number, a tie going to
the even one. -/
def roundHalfEven (a b : Nat) : Nat :=
  let q := a / b
  let r := a % b
  if 2 * r < b then q
  else if b < 2 * r then q + 1
  else if q % 2 = 0 then q
  else q + 1

/-- The number of halvings that take `q` below 2, at most `fuel` of them. -/
def binaryExponentAux : Nat → Nat → Nat
  | 0, _ => 0
  | fuel + 1, q => if q < 2 then 0 else binaryExponentAux fuel (q / 2) + 1

/-- The exponent `e` of the leading bit of `q ≥ 1`: `2 ^ e ≤ q < 2 ^ (e + 1)`. -/
def binaryExponent (q : Nat) : Nat :=
  binaryExponentAux q q

/-- The whole number held by the JavaScript number (an IEEE 754 double, with a
significand of 53 bits) that is nearest to the whole number `c`, a tie going
to the even significand. Every whole number below `2 ^ 53` is held exactly;
the overflow to `Infinity`, from `2 ^ 1024` on, is left out. -/
def toDouble (c : Nat) : Nat :=
  if c < 2 ^ 53 then c
  else
    let shift := binaryExponent c - 52
    roundHalfEven c (2 ^ shift) * 2 ^ shift

/-- The expression `Math.floor(a / b)` on whole numbers `a` and `b` that
doubles hold, `1 ≤ b < 2 ^ 53`: the quotient is rounded to a double, a tie
going to the even significand, and then rounded down. -/
def floorOfQuotient (a b : Nat) : Nat :=
  let q := a / b
  if q = 0 then 0
  else
    let e := binaryExponent q
    if 52 ≤ e then roundHalfEven a (b * 2 ^ (e - 52)) * 2 ^ (e - 52)
    else roundHalfEven (a * 2 ^ (52 - e)) b / 2 ^ (52 - e)

/-- The shortest decimal that the double `x` is written with: the search runs
from the power of ten `10 ^ p` downward and returns the first multiple of a
power of ten whose nearest double is `x`, the one closest to `x`, together with
the exponent of that power. -/
def shortestDecimal (x : Nat) : Nat → Nat × Nat
  | 0 => (x, 0)
  | p + 1 =>
    let unit := 10 ^ (p + 1)
    let down := x / unit * unit
    let up := down + unit
    if toDouble down = x ∧ toDouble up = x then
      if x - down < up - x then (down, p + 1)
      else if up - x < x - down then (up, p + 1)
      else if (down / unit) % 2 = 0 then (down, p + 1)
      else (up, p + 1)
    else if toDouble down = x then (down, p + 1)
    else if toDouble up = x then (up, p + 1)
    else shortestDecimal x p

/-- The method `Number.prototype.toString` on a whole number `n` that a double
holds: the digits of the shortest decimal whose nearest double is `n`, followed
by zeros up to the size of `n` when that takes at most 21 digits, and in
exponent form (`d.ddde+x`) from `10 ^ 21` on. -/
def numberToString (n : Nat) : JsString :=
  let found := shortestDecimal n (decimalDigits n).length
  let digits := decimalDigits found.1
  if digits.length ≤ 21 then digits
  else
    let s := decimalDigits (found.1 / 10 ^ found.2)
    let e := decimalDigits (digits.length - 1)
    if s.length = 1 then s ++ "e+".toList ++ e
    else s.take 1 ++ ['.'] ++ s.drop 1 ++ "e+".toList ++ e

/-! ## speech.js -/

/-- One entry of `event.results`: the transcript of its first alternative
(`event.results[i][0].transcript`) and its `isFinal` flag. -/
structure SpeechRecognitionResult where
  transcript : JsString
  isFinal : Bool
  deriving DecidableEq

/-- The argument of `recognition.onresult`. -/
structure SpeechRecognitionEvent where
  resultIndex : Nat
  results : List SpeechRecognitionResult
  deriving DecidableEq

/-- What the speech manager asks of the host. -/
inductive SpeechEffect where
  | alert (message : JsString)
  | requestMicrophonePermission
  | recognitionStart
  | recognitionStop
  | fetchSpeechStatus (active : Bool)
  | dispatchInput
  deriving DecidableEq

/-- The element `#toggle-speech`; `classList` is its list of class tokens. -/
structure SpeechButton where
  disabled : Bool := false
  innerHTML : JsString := []
  classList : List JsString := []
  deriving DecidableEq

/-- The element `#speech-status`: the `className` of its `.h-3` child and the
`textContent` of its `span:last-child`, each `none` when `querySelector` finds
no such child. -/
structure SpeechStatus where
  indicatorClassName : Option JsString := some []
  text : Option JsString := some []
  deriving DecidableEq

/-- The fields of a `SpeechRecognitionManager` and the elements it holds.
`recognition` is `true` when `this.recognition` holds a recognition object and
`false` when it is `null`; `transcriptDisplay` is the `innerHTML` of the
`#transcript-display` element; an element is `none` when the page has no such
element. The text area `#answer-text`, which the interview manager shares, is
an argument of `onend`. -/
structure SpeechRecognitionManager where
  recognition : Bool := false
  isListening : Bool := false
  finalTranscript : JsString := []
  interimTranscript : JsString := []
  isSupported : Bool := false
  transcriptDisplay : Option JsString := some []
  speechButton : Option SpeechButton := some {}
  speechStatus : Option SpeechStatus := some {}
  effects : List SpeechEffect := []
  deriving DecidableEq

/-- The method `DOMTokenList.remove`. -/
def classListRemove (classes tokens : List JsString) : List JsString :=
  classes.filter fun c => !tokens.contains c

/-- The method `DOMTokenList.add`: a token already present is not added again. -/
def classListAdd (classes tokens : List JsString) : List JsString :=
  tokens.foldl (fun cs t => if cs.contains t then cs else cs ++ [t]) classes

namespace SpeechRecognitionManager

/-- The method `updateTranscriptDisplay` (speech.js 234-253); the scroll
position it sets last is not part of the state. -/
def updateTranscriptDisplay (m : SpeechRecognitionManager) : SpeechRecognitionManager :=
  match m.transcriptDisplay with
  | none => m
  | some _ =>
    let displayText := m.finalTranscript
    let displayText :=
      if m.interimTranscript ≠ [] then
        displayText ++ ("<span class=\"text-gray-400\">".toList ++ m.interimTranscript
          ++ "</span>".toList)
      else displayText
    let displayText :=
      if jsTrim displayText = [] then
        "<p class=\"text-gray-500 italic\">Start speaking... Your words will appear here.</p>".toList
      else "<p>".toList ++ displayText ++ "</p>".toList
    { m with transcriptDisplay := some displayText }

/-- One turn of the loop of `recognition.onresult` (speech.js 51-59). -/
def onresultItem (m : SpeechRecognitionManager) (r : SpeechRecognitionResult) :
    SpeechRecognitionManager :=
  if r.isFinal then
    { m with finalTranscript := m.finalTranscript ++ (r.transcript ++ [' ']) }
  else
    { m with interimTranscript := m.interimTranscript ++ r.transcript }

/-- The handler `recognition.onresult` (speech.js 47-63): the loop visits the
entries `event.resultIndex`, ..., `event.results.length - 1` in order. -/
def onresult (m : SpeechRecognitionManager) (event : SpeechRecognitionEvent) :
    SpeechRecognitionManager :=
  let m := { m with interimTranscript := [] }
  let m := (event.results.drop event.resultIndex).foldl onresultItem m
  updateTranscriptDisplay m

/-- The method `start` up to the permission request (speech.js 146-158); the
request is answered later by the host. -/
def start (m : SpeechRecognitionManager) : SpeechRecognitionManager :=
  if m.recognition = false then
    { m with effects := m.effects ++
        [.alert "Speech recognition not initialized. Please refresh the page.".toList] }
  else
    let m := { m with finalTranscript := [] }
    let m := { m with interimTranscript := [] }
    let m := updateTranscriptDisplay m
    { m with effects := m.effects ++ [.requestMicrophonePermission] }

/-- The rest of `start`, run when the permission request ends (speech.js
159-170): `recognition.start()` on a grant, unless it throws, and a notice
otherwise. -/
def startReply (granted startThrows : Bool) (m : SpeechRecognitionManager) :
    SpeechRecognitionManager :=
  if granted then
    if startThrows then
      { m with effects := m.effects ++
          [.alert "Failed to start speech recognition. Please try again.".toList] }
    else { m with effects := m.effects ++ [.recognitionStart] }
  else
    { m with effects := m.effects ++
        [.alert ("Microphone access is required for speech recognition. " ++
          "Please allow microphone access.").toList] }

/-- The method `stop` (speech.js 188-196). -/
def stop (m : SpeechRecognitionManager) : SpeechRecognitionManager :=
  if m.recognition = true ∧ m.isListening = true then
    { m with effects := m.effects ++ [.recognitionStop] }
  else m

/-- The method `updateStatusIndicator` (speech.js 219-232). -/
def updateStatusIndicator (color text : JsString) (m : SpeechRecognitionManager) :
    SpeechRecognitionManager :=
  match m.speechStatus with
  | none => m
  | some status =>
    let className : JsString :=
      "h-3 w-3 rounded-full bg-".toList ++ color ++ "-500 mr-2 ".toList ++
        (if color = "green".toList then "animate-pulse".toList else [])
    let status :=
      match status.indicatorClassName with
      | some _ => { status with indicatorClassName := some className }
      | none => status
    let status :=
      match status.text with
      | some _ => { status with text := some text }
      | none => status
    { m with speechStatus := some status }

/-- The method `updateUI` (speech.js 198-217). -/
def updateUI (m : SpeechRecognitionManager) : SpeechRecognitionManager :=
  match m.speechButton with
  | none => m
  | some button =>
    if m.isListening then
      let button := { button with
        innerHTML := "<i class=\"fas fa-microphone-slash mr-2\"></i> Stop Speaking".toList }
      let classes :=
        classListRemove button.classList ["from-green-500".toList, "to-blue-500".toList]
      let button := { button with classList := classes }
      let classes :=
        classListAdd button.classList ["from-red-500".toList, "to-purple-500".toList]
      let button := { button with classList := classes }
      updateStatusIndicator "green".toList "Listening...".toList
        { m with speechButton := some button }
    else
      let button := { button with
        innerHTML := "<i class=\"fas fa-microphone mr-2\"></i> Start Speaking".toList }
      let classes :=
        classListRemove button.classList ["from-red-500".toList, "to-purple-500".toList]
      let button := { button with classList := classes }
      let classes :=
        classListAdd button.classList ["from-green-500".toList, "to-blue-500".toList]
      let button := { button with classList := classes }
      updateStatusIndicator "red".toList "Off".toList
        { m with speechButton := some button }

/-- The method `sendSpeechStatus` up to its request (speech.js 255-265); a
failure of the request is only logged. -/
def sendSpeechStatus (isActive : Bool) (m : SpeechRecognitionManager) :
    SpeechRecognitionManager :=
  { m with effects := m.effects ++ [.fetchSpeechStatus isActive] }

/-- The handler `recognition.onstart` (speech.js 40-45). -/
def onstart (m : SpeechRecognitionManager) : SpeechRecognitionManager :=
  let m := { m with isListening := true }
  let m := updateUI m
  sendSpeechStatus true m

/-- The handler `recognition.onerror` (speech.js 65-85); `error` is
`event.error`. -/
def onerror (error : JsString) (m : SpeechRecognitionManager) : SpeechRecognitionManager :=
  let m := { m with isListening := false }
  let m := updateUI m
  let m := sendSpeechStatus false m
  if error = "no-speech".toList then
    { m with effects := m.effects ++
        [.alert "No speech detected. Please speak clearly into the microphone.".toList] }
  else if error = "audio-capture".toList then
    { m with effects := m.effects ++
        [.alert ("No microphone found. Please ensure a microphone is connected " ++
          "and permissions are granted.").toList] }
  else if error = "not-allowed".toList then
    { m with effects := m.effects ++
        [.alert ("Microphone access was denied. Please allow microphone access " ++
          "in your browser settings.").toList] }
  else m

/-- The handler `recognition.onend` (speech.js 87-104). `answerText` is the
`value` of the text area `#answer-text`, `none` when the page has no such
element; the result is the manager and the value after the handler. -/
def onend (m : SpeechRecognitionManager) (answerText : Option JsString) :
    SpeechRecognitionManager × Option JsString :=
  let m := { m with isListening := false }
  let m := updateUI m
  let m := sendSpeechStatus false m
  match answerText with
  | none => (m, none)
  | some currentText =>
    let speechText := jsTrim m.finalTranscript
    if speechText ≠ [] then
      let value :=
        if currentText ≠ [] then currentText ++ [' '] ++ speechText else speechText
      ({ m with effects := m.effects ++ [.dispatchInput] }, some value)
    else (m, some currentText)

/-- The method `getTranscript` (speech.js 267-269). -/
def getTranscript (m : SpeechRecognitionManager) : JsString :=
  jsTrim m.finalTranscript

/-- The method `clearTranscript` (speech.js 271-275). -/
def clearTranscript (m : SpeechRecognitionManager) : SpeechRecognitionManager :=
  let m := { m with finalTranscript := [] }
  let m := { m with interimTranscript := [] }
  updateTranscriptDisplay m

/-- The method `toggleSpeechRecognition` (speech.js 133-144). -/
def toggleSpeechRecognition (m : SpeechRecognitionManager) : SpeechRecognitionManager :=
  if m.isSupported = false then
    { m with effects := m.effects ++
        [.alert ("Speech recognition is not supported in your browser. " ++
          "Please use Chrome, Edge, or Safari.").toList] }
  else if m.isListening then stop m
  else start m

end SpeechRecognitionManager

/-! ## interview.js -/

/-- A question of the `/api/next-question` payload. `id` is the text that
ends up in the `value` of the hidden `#current-question-id` input;
`time_allocated` is `none` when the payload has no such number (`undefined`
or `null`) and a whole number of seconds otherwise. -/
structure Question where
  id : JsString
  question_text : JsString
  question_type : JsString
  difficulty : JsString
  time_allocated : Option Nat
  deriving DecidableEq

/-- The JSON body of the `/api/analyze-answer` request (interview.js 161-166). -/
structure AnalyzeAnswerBody where
  question_id : JsString
  answer_text : JsString
  transcript : JsString
  duration : Int
  deriving DecidableEq

/-- What the interview manager asks of the host, in program order. Timer
handles are named by natural numbers; every handle is a truthy value, as the
handles of `setInterval` are positive integers. -/
inductive Effect where
  | alert (message : JsString)
  | confirm (message : JsString)
  | setInterval (handle : Nat) (delay : Nat)
  | clearInterval (handle : Nat)
  | fetchNextQuestion
  | fetchAnalyzeAnswer (body : AnalyzeAnswerBody)
  | navigate (href : JsString)
  deriving DecidableEq

/-- A JavaScript number that is either an exact rational or not finite
(`NaN`, `Infinity`, `-Infinity`). -/
inductive JsNumber where
  | finite (q : ℚ)
  | notFinite
  deriving DecidableEq

/-- An element with a text and a class list written as one string. -/
structure Tag where
  textContent : JsString := []
  className : JsString := []
  deriving DecidableEq

/-- The submit control `#submit-answer`. -/
structure Button where
  disabled : Bool := false
  innerHTML : JsString := []
  deriving DecidableEq

/-- The control `#next-question-btn`: its `innerHTML`, and the address that its
`onclick` handler assigns to `window.location.href`, `none` while no handler is
set. -/
structure NextButton where
  innerHTML : JsString := []
  onclick : Option JsString := none
  deriving DecidableEq

/-- The `analysis` object of the `/api/analyze-answer` response, each field as
the text that the template of `displayFeedback` interpolates; the two optional
fields are `none` when absent, and falsy when empty. -/
structure Analysis where
  grammar_score : JsString
  relevance_score : JsString
  confidence_score : JsString
  star_score : JsString
  filler_words_count : JsString
  feedback : JsString
  suggested_answer : Option JsString
  cross_question : Option JsString
  deriving DecidableEq

/-- How the `/api/analyze-answer` request ends: a JSON body whose `status` is
`'success'` (with `analysis` and the truth value of `next_question_available`)
or anything else, or a failure of `fetch` / `response.json()`. -/
inductive AnalyzeReply where
  | success (analysis : Analysis) (next_question_available : Bool)
  | otherStatus
  | failed
  deriving DecidableEq

/-- How the `/api/next-question` request ends: a JSON body whose `status` is
`'success'` (with its question), `'completed'` or anything else, or a failure
of `fetch` / `response.json()`. -/
inductive NextQuestionReply where
  | success (question : Question)
  | completed
  | otherStatus
  | failed
  deriving DecidableEq

/-- The state of the interview page: the fields of the `InterviewManager`
object, the elements of the document it reads and writes, `window.speechManager`
(`none` when it is not set), and the host's timers. `activeTimers` lists the
intervals that were set and not yet cleared, each with the `totalTime` its
callback captured. -/
structure InterviewManager where
  currentQuestionIndex : Nat := 0
  questions : List Question := []
  sessionId : Option JsString := none
  timerInterval : Option Nat := none
  timeLeft : Nat := 120
  questionText : JsString := []
  currentQuestionId : JsString := []
  questionCounter : JsString := []
  questionType : Tag := {}
  questionDifficulty : Tag := {}
  timerDisplay : JsString := []
  strokeDashoffset : Option JsNumber := none
  answerText : JsString := []
  feedbackAreaHidden : Bool := true
  feedbackContent : JsString := []
  submitBtn : Button := {}
  nextBtn : NextButton := {}
  speechManager : Option SpeechRecognitionManager := none
  nextTimerHandle : Nat := 0
  activeTimers : List (Nat × Nat) := []
  effects : List Effect := []
  deriving DecidableEq

/-- The expression `a || d` for `a` absent or a whole number: `0` is falsy. -/
def orDefault (a : Option Nat) (d : Nat) : Nat :=
  match a with
  | some n => if n = 0 then d else n
  | none => d

/-- The expression `s.charAt(0).toUpperCase() + s.slice(1)`; the host's
`String.prototype.toUpperCase` is a parameter. -/
def capitalize (toUpperCase : JsString → JsString) (s : JsString) : JsString :=
  toUpperCase (s.take 1) ++ s.drop 1

/-- The constant `circumference` of the timer callback (interview.js 119). -/
def circumference : ℚ := 32656 / 100

/-- The expression `circumference - (timeLeft / totalTime) * circumference`
(interview.js 120) in exact arithmetic; a division by zero is not finite. -/
def progressOffset (timeLeft totalTime : Nat) : JsNumber :=
  if totalTime = 0 then .notFinite
  else .finite (circumference - ((timeLeft : ℚ) / (totalTime : ℚ)) * circumference)

/-- The template literal that opens `feedbackHTML` (interview.js 189-218). -/
def feedbackScoresHTML (analysis : Analysis) : JsString :=
    ("\n" ++
      "            <div class=\"grid grid-cols-2 md:grid-cols-4 gap-4 mb-6\">\n" ++
      "                <div class=\"text-center p-4 bg-blue-50 rounded-lg\">\n" ++
      "                    <div class=\"text-2xl font-bold text-blue-700\">").toList ++
    analysis.grammar_score ++
    ("/10</div>\n" ++
      "                    <div class=\"text-sm text-blue-600\">Grammar</div>\n" ++
      "                </div>\n" ++
      "                <div class=\"text-center p-4 bg-green-50 rounded-lg\">\n" ++
      "                    <div class=\"text-2xl font-bold text-green-700\">").toList ++
    analysis.relevance_score ++
    ("/10</div>\n" ++
      "                    <div class=\"text-sm text-green-600\">Relevance</div>\n" ++
      "                </div>\n" ++
      "                <div class=\"text-center p-4 bg-yellow-50 rounded-lg\">\n" ++
      "                    <div class=\"text-2xl font-bold text-yellow-700\">").toList ++
    analysis.confidence_score ++
    ("/10</div>\n" ++
      "                    <div class=\"text-sm text-yellow-600\">Confidence</div>\n" ++
      "                </div>\n" ++
      "                <div class=\"text-center p-4 bg-purple-50 rounded-lg\">\n" ++
      "                    <div class=\"text-2xl font-bold text-purple-700\">").toList ++
    analysis.star_score ++
    ("/10</div>\n" ++
      "                    <div class=\"text-sm text-purple-600\">STAR Method</div>\n" ++
      "                </div>\n" ++
      "            </div>\n" ++
      "            \n" ++
      "            <div class=\"p-4 bg-gray-50 rounded-lg mb-4\">\n" ++
      "                <h4 class=\"font-bold mb-2\">Filler Words:</h4>\n" ++
      "                <p>").toList ++
    analysis.filler_words_count ++
    (" filler words detected (um, uh, like, etc.)</p>\n" ++
      "            </div>\n" ++
      "            \n" ++
      "            <div class=\"p-4 bg-green-50 rounded-lg mb-4\">\n" ++
      "                <h4 class=\"font-bold mb-2\">AI Feedback:</h4>\n" ++
      "                <p>").toList ++
    analysis.feedback ++
    ("</p>\n" ++
      "            </div>\n" ++
      "        ").toList

/-- The block appended for a truthy `suggested_answer` (interview.js 221-226). -/
def suggestedAnswerHTML (text : JsString) : JsString :=
    ("\n" ++
      "                <div class=\"p-4 bg-blue-50 rounded-lg mb-4\">\n" ++
      "                    <h4 class=\"font-bold mb-2\">Suggested Better Answer:</h4>\n" ++
      "                    <p>").toList ++
    text ++
    ("</p>\n" ++
      "                </div>\n" ++
      "            ").toList

/-- The block appended for a truthy `cross_question` (interview.js 230-235). -/
def crossQuestionHTML (text : JsString) : JsString :=
    ("\n" ++
      "                <div class=\"p-4 bg-yellow-50 rounded-lg\">\n" ++
      "                    <h4 class=\"font-bold mb-2\">Follow-up Question:</h4>\n" ++
      "                    <p>").toList ++
    text ++
    ("</p>\n" ++
      "                </div>\n" ++
      "            ").toList

/-- The text `feedbackHTML` that `displayFeedback` builds (interview.js 188-236). -/
def feedbackHTML (analysis : Analysis) : JsString :=
  let feedbackHTML := feedbackScoresHTML analysis
  let feedbackHTML :=
    match analysis.suggested_answer with
    | some text => if text ≠ [] then feedbackHTML ++ suggestedAnswerHTML text else feedbackHTML
    | none => feedbackHTML
  match analysis.cross_question with
  | some text => if text ≠ [] then feedbackHTML ++ crossQuestionHTML text else feedbackHTML
  | none => feedbackHTML

namespace InterviewManager

/-- The method `stopTimer` (interview.js 126-131); `if (this.timerInterval)`
is the test for a handle, as every handle is truthy. -/
def stopTimer (m : InterviewManager) : InterviewManager :=
  match m.timerInterval with
  | some handle =>
    { m with
      activeTimers := m.activeTimers.filter (fun t => t.1 ≠ handle)
      effects := m.effects ++ [.clearInterval handle]
      timerInterval := none }
  | none => m

/-- The method `updateTimerDisplay` (interview.js 133-138). `Math.floor` of
the quotient and `toString` work on doubles; the remainder `%` of two whole
numbers is exact. -/
def updateTimerDisplay (m : InterviewManager) : InterviewManager :=
  let minutes := floorOfQuotient m.timeLeft 60
  let seconds := m.timeLeft % 60
  { m with timerDisplay :=
      padStart (numberToString minutes) 2 '0' ++ [':'] ++ padStart (numberToString seconds) 2 '0' }

/-- The transcript that `submitAnswer` reads (interview.js 145). -/
def transcriptOf (m : InterviewManager) : JsString :=
  match m.speechManager with
  | some sm => sm.getTranscript
  | none => []

/-- The method `submitAnswer` from its invocation to its first `await`
(interview.js 140-167): either the local rejection, or the request is issued. -/
def submitAnswer (m : InterviewManager) : InterviewManager :=
  let m := stopTimer m
  let questionId := m.currentQuestionId
  let answerText := m.answerText
  let transcript := transcriptOf m
  let duration : Int := 120 - (m.timeLeft : Int)
  if jsTrim answerText = [] ∧ jsTrim transcript = [] then
    { m with effects := m.effects ++
        [.alert "Please provide an answer before submitting.".toList] }
  else
    let m := { m with submitBtn := { m.submitBtn with disabled := true } }
    let m := { m with submitBtn := { m.submitBtn with
                innerHTML := "<i class=\"fas fa-spinner fa-spin mr-2\"></i> Analyzing...".toList } }
    { m with effects := m.effects ++
        [.fetchAnalyzeAnswer
          { question_id := questionId, answer_text := answerText,
            transcript := transcript, duration := duration }] }

/-- The callback that `startTimer` hands to `setInterval` (interview.js
108-123); `totalTime` is the value the closure captured. -/
def timerCallback (totalTime : Nat) (m : InterviewManager) : InterviewManager :=
  if m.timeLeft ≤ 0 then
    submitAnswer (stopTimer m)
  else
    let m := { m with timeLeft := m.timeLeft - 1 }
    let m := updateTimerDisplay m
    let offset := progressOffset m.timeLeft totalTime
    { m with strokeDashoffset := some offset }

/-- The method `startTimer` (interview.js 101-124). -/
def startTimer (m : InterviewManager) : InterviewManager :=
  let m := stopTimer m
  let totalTime := m.timeLeft
  let handle := m.nextTimerHandle
  { m with
    nextTimerHandle := handle + 1
    activeTimers := (handle, totalTime) :: m.activeTimers
    effects := m.effects ++ [.setInterval handle 1000]
    timerInterval := some handle }

/-- The host fires the interval `handle`: its callback runs when the interval
is still set, and nothing happens once it has been cleared. -/
def tick (handle : Nat) (m : InterviewManager) : InterviewManager :=
  match m.activeTimers.lookup handle with
  | some totalTime => timerCallback totalTime m
  | none => m

/-- The host fires the interval `handle` `k` times in a row. -/
def ticks (handle : Nat) : Nat → InterviewManager → InterviewManager
  | 0, m => m
  | k + 1, m => ticks handle k (tick handle m)

/-- The method `displayQuestion` (interview.js 39-81). -/
def displayQuestion (toUpperCase : JsString → JsString) (m : InterviewManager)
    (question : Question) : InterviewManager :=
  let m := { m with questionText := question.question_text }
  let m := { m with currentQuestionId := question.id }
  let m := { m with questionCounter :=
    "Question ".toList ++ numberToString (m.currentQuestionIndex + 1) ++ " of ".toList
      ++ numberToString m.questions.length }
  let m := { m with questionType :=
    { textContent := capitalize toUpperCase question.question_type
      className := "px-3 py-1 rounded-full text-sm ".toList ++
        (if question.question_type = "technical".toList then "bg-blue-100 text-blue-800".toList
         else if question.question_type = "behavioral".toList then
           "bg-green-100 text-green-800".toList
         else if question.question_type = "situational".toList then
           "bg-yellow-100 text-yellow-800".toList
         else "bg-purple-100 text-purple-800".toList) } }
  let m := { m with questionDifficulty :=
    { textContent := capitalize toUpperCase question.difficulty
      className := "px-3 py-1 rounded-full text-sm ".toList ++
        (if question.difficulty = "easy".toList then "bg-green-100 text-green-800".toList
         else if question.difficulty = "medium".toList then "bg-yellow-100 text-yellow-800".toList
         else "bg-red-100 text-red-800".toList) } }
  let m := { m with timeLeft := orDefault question.time_allocated 120 }
  let m := updateTimerDisplay m
  let m := { m with answerText := [] }
  let m := { m with speechManager := m.speechManager.map SpeechRecognitionManager.clearTranscript }
  { m with feedbackAreaHidden := true }

/-- The method `showCompletionMessage` (interview.js 282-285). -/
def showCompletionMessage (m : InterviewManager) : InterviewManager :=
  { m with effects := m.effects ++
      [.alert "All questions completed! Moving to coding test...".toList,
       .navigate "/coding-test".toList] }

/-- The method `loadQuestions` up to its first `await` (interview.js 19-24). -/
def loadQuestions (m : InterviewManager) : InterviewManager :=
  { m with effects := m.effects ++ [.fetchNextQuestion] }

/-- The rest of `loadQuestions`, run when its request ends (interview.js 26-36). -/
def loadQuestionsReply (toUpperCase : JsString → JsString) (m : InterviewManager)
    (reply : NextQuestionReply) : InterviewManager :=
  match reply with
  | .success question =>
    let m := displayQuestion toUpperCase m question
    { m with questions := m.questions ++ [question] }
  | .completed => showCompletionMessage m
  | .otherStatus => m
  | .failed => m

/-- The method `nextQuestion` up to its first `await` (interview.js 260-267). -/
def nextQuestion (m : InterviewManager) : InterviewManager :=
  let m := { m with currentQuestionIndex := m.currentQuestionIndex + 1 }
  { m with effects := m.effects ++ [.fetchNextQuestion] }

/-- The rest of `nextQuestion`, run when its request ends (interview.js 269-279). -/
def nextQuestionReply (toUpperCase : JsString → JsString) (m : InterviewManager)
    (reply : NextQuestionReply) : InterviewManager :=
  match reply with
  | .success question =>
    let m := displayQuestion toUpperCase m question
    { m with questions := m.questions ++ [question] }
  | .completed => showCompletionMessage m
  | .otherStatus => m
  | .failed => m

/-- The method `displayFeedback` (interview.js 183-252). -/
def displayFeedback (m : InterviewManager) (analysis : Analysis) (hasNextQuestion : Bool) :
    InterviewManager :=
  let m := { m with feedbackContent := feedbackHTML analysis }
  let m :=
    if hasNextQuestion then
      { m with nextBtn := { m.nextBtn with
          innerHTML := "Next Question <i class=\"fas fa-arrow-right ml-2\"></i>".toList } }
    else
      let m := { m with nextBtn := { m.nextBtn with
          innerHTML :=
            "Continue to Coding Test <i class=\"fas fa-arrow-right ml-2\"></i>".toList } }
      { m with nextBtn := { m.nextBtn with onclick := some "/coding-test".toList } }
  { m with feedbackAreaHidden := false }

/-- The rest of `submitAnswer`, run when its request ends (interview.js
169-180): the `try` block, the `catch` block on a failure, and the `finally`
block in every case. -/
def submitAnswerReply (m : InterviewManager) (reply : AnalyzeReply) : InterviewManager :=
  let m : InterviewManager :=
    match reply with
    | .success analysis next_question_available =>
      displayFeedback m analysis next_question_available
    | .otherStatus => m
    | .failed =>
      { m with effects := m.effects ++
          [.alert "Error submitting answer. Please try again.".toList] }
  let m := { m with submitBtn := { m.submitBtn with disabled := false } }
  { m with submitBtn := { m.submitBtn with
      innerHTML := "<i class=\"fas fa-paper-plane mr-2\"></i> Submit Answer".toList } }

/-- A click on `#next-question-btn`. The listener that `setupEventListeners`
added (interview.js 94) runs `nextQuestion`; the `onclick` handler, installed
later by `displayFeedback` (interview.js 245-247), runs after it when set. -/
def clickNextQuestionBtn (m : InterviewManager) : InterviewManager :=
  let m := nextQuestion m
  match m.nextBtn.onclick with
  | some href => { m with effects := m.effects ++ [.navigate href] }
  | none => m

/-- The method `finishInterview` (interview.js 287-291); `confirmed` is the
answer the user gives to the dialog. -/
def finishInterview (confirmed : Bool) (m : InterviewManager) : InterviewManager :=
  let m := { m with effects := m.effects ++
    [.confirm ("Are you sure you want to finish the interview? " ++
      "This will end the session.").toList] }
  if confirmed then { m with effects := m.effects ++ [.navigate "/feedback".toList] } else m

/-- The method `skipQuestion` (interview.js 254-258); `confirmed` is the answer
the user gives to the dialog. -/
def skipQuestion (confirmed : Bool) (m : InterviewManager) : InterviewManager :=
  let m := { m with effects := m.effects ++ [.confirm "Skip this question?".toList] }
  if confirmed then nextQuestion m else m

/-- The method `init` (interview.js 13-17); `setupEventListeners` installs the
handlers, which are the functions of this section. -/
def init (m : InterviewManager) : InterviewManager :=
  startTimer (loadQuestions m)

/-- The constructor (interview.js 3-11), run on the page `page`. -/
def construct (page : InterviewManager) : InterviewManager :=
  init { page with
    currentQuestionIndex := 0
    questions := []
    timerInterval := none
    timeLeft := 120 }

/-- The user edits the answer text area. -/
def typeAnswer (text : JsString) (m : InterviewManager) : InterviewManager :=
  { m with answerText := text }

/-- A click on `#start-timer` (interview.js 97). -/
def clickStartTimer (m : InterviewManager) : InterviewManager :=
  startTimer m

/-- A click on `#submit-answer` (interview.js 85): a disabled control
dispatches no click. -/
def clickSubmit (m : InterviewManager) : InterviewManager :=
  if m.submitBtn.disabled then m else submitAnswer m

end InterviewManager

/-- The number of times `submitAnswer` has run, read off the effects: every run
ends in exactly one of the validation notice and the analyze-answer request. -/
def submitOutcomes (effects : List Effect) : Nat :=
  effects.countP fun e =>
    match e with
    | .alert message => message = "Please provide an answer before submitting.".toList
    | .fetchAnalyzeAnswer _ => true
    | _ => false

/-- The analyze-answer requests among the effects, in the order issued. -/
def analyzeRequests (effects : List Effect) : List AnalyzeAnswerBody :=
  effects.filterMap fun e =>
    match e with
    | .fetchAnalyzeAnswer body => some body
    | _ => none

/-- The number of next-question requests among the effects. -/
def nextQuestionRequests (effects : List Effect) : Nat :=
  effects.count .fetchNextQuestion

/-- The addresses assigned to `window.location.href`, in order. -/
def navigations (effects : List Effect) : List JsString :=
  effects.filterMap fun e =>
    match e with
    | .navigate href => some href
    | _ => none

/-- The value of a decimal digit character. -/
def digitValue (c : Char) : Nat :=
  c.toNat - '0'.toNat

/-- The whole number that a string of decimal digits denotes. -/
def readDecimal (s : JsString) : Nat :=
  s.foldl (fun acc c => 10 * acc + digitValue c) 0

/-- The final recognition results that a run of result events delivers to the
handler, in arrival order: for each event, the transcripts of the final entries
from `resultIndex` onward. -/
def deliveredFinals (events : List SpeechRecognitionEvent) : List JsString :=
  events.flatMap fun e =>
    ((e.results.drop e.resultIndex).filter (·.isFinal)).map (·.transcript)

/-- The separator that `onresult` writes after each final result. -/
def separator : JsString := [' ']

/-- The items joined in order with the separator once between consecutive items. -/
def joinWithSeparator : List JsString → JsString
  | [] => []
  | [r] => r
  | r :: rest => r ++ separator ++ joinWithSeparator rest

/-- A question whose payload allocates 60 seconds. -/
def sampleQuestion : Question :=
  { id := "7".toList
    question_text := "Why this role?".toList
    question_type := "behavioral".toList
    difficulty := "easy".toList
    time_allocated := some 60 }

/-- A session as the page runs it: the manager is constructed on an empty page,
the first question (`allocated` seconds) arrives and is displayed, and the
user types the answer `a`. -/
def sampleSession (allocated : Nat) : InterviewManager :=
  InterviewManager.typeAnswer ['a']
    (InterviewManager.loadQuestionsReply id (InterviewManager.construct {})
      (.success { sampleQuestion with time_allocated := some allocated }))

/-- An analysis as the analyze-answer service returns it. -/
def sampleAnalysis : Analysis :=
  { grammar_score := "8".toList
    relevance_score := "7".toList
    confidence_score := "6".toList
    star_score := "5".toList
    filler_words_count := "2".toList
    feedback := "Good structure.".toList
    suggested_answer := none
    cross_question := none }

/-- The sample session after its answer was submitted and the response, with
`next_question_available` as given, was handled: the feedback is on display. -/
def sampleFeedbackShown (next_question_available : Bool) : InterviewManager :=
  InterviewManager.submitAnswerReply (InterviewManager.clickSubmit (sampleSession 60))
    (.success sampleAnalysis next_question_available)

/-- The placeholder that `updateTranscriptDisplay` shows for an empty transcript. -/
def emptyTranscriptPlaceholder : JsString :=
  "<p class=\"text-gray-500 italic\">Start speaking... Your words will appear here.</p>".toList

/-- The operations on the countdown: the methods `startTimer`, `stopTimer`,
`submitAnswer` and `displayQuestion`, and a firing of the interval `handle`. -/
inductive TimerOp where
  | startTimer
  | stopTimer
  | tick (handle : Nat)
  | submitAnswer
  | displayQuestion (question : Question)
  deriving DecidableEq

/-- One operation on the countdown, run on the state `m`. -/
def InterviewManager.applyOp (toUpperCase : JsString → JsString) (m : InterviewManager)
    (op : TimerOp) : InterviewManager :=
  match op with
  | .startTimer => m.startTimer
  | .stopTimer => m.stopTimer
  | .tick handle => InterviewManager.tick handle m
  | .submitAnswer => m.submitAnswer
  | .displayQuestion question => InterviewManager.displayQuestion toUpperCase m question

/-- A sequence of operations on the countdown, run in order from the state `m`. -/
def InterviewManager.runOps (toUpperCase : JsString → JsString) (ops : List TimerOp)
    (m : InterviewManager) : InterviewManager :=
  ops.foldl (InterviewManager.applyOp toUpperCase) m

/-- The effect `e` on the list of intervals that are set: `setInterval` adds
its handle, `clearInterval` removes it. -/
def liveStep (live : List Nat) (e : Effect) : List Nat :=
  match e with
  | .setInterval handle _ => live ++ [handle]
  | .clearInterval handle => live.filter fun h => h ≠ handle
  | _ => live

/-- The intervals that the effects have set and not cleared afterwards. -/
def liveIntervals (effects : List Effect) : List Nat :=
  effects.foldl liveStep []

/-! ## Lemmas on trimming -/

theorem isJsWhitespace_space : isJsWhitespace ' ' = true := by decide

theorem jsTrim_nil : jsTrim [] = [] := by
  simp [jsTrim]

theorem jsTrim_append_space (x : JsString) : jsTrim (x ++ [' ']) = jsTrim x := by
  unfold jsTrim
  rw [List.dropWhile_append]
  by_cases h : (x.dropWhile isJsWhitespace).isEmpty = true
  · have h2 : x.dropWhile isJsWhitespace = [] := by simpa using h
    simp [h2, List.dropWhile_cons, isJsWhitespace_space]
  · rw [if_neg h]
    exact List.rdropWhile_concat_pos _ _ _ isJsWhitespace_space

theorem jsTrim_eq_nil_iff (s : JsString) :
    jsTrim s = [] ↔ ∀ c ∈ s, isJsWhitespace c = true := by
  unfold jsTrim
  rw [List.rdropWhile_eq_nil_iff]
  constructor
  · intro h
    have h2 : s.dropWhile isJsWhitespace = [] := by
      by_contra hne
      have hlen : 0 < (s.dropWhile isJsWhitespace).length := List.length_pos.mpr hne
      have hself := (List.dropWhile_eq_self_iff (p := isJsWhitespace)
        (l := s.dropWhile isJsWhitespace)).mp (List.dropWhile_idempotent _ _) hlen
      exact hself (h _ (List.get_mem _ _ _))
    exact List.dropWhile_eq_nil_iff.mp h2
  · intro h
    have h2 : s.dropWhile isJsWhitespace = [] := List.dropWhile_eq_nil_iff.mpr h
    simp [h2]

theorem dropWhile_fixed_of_append (p : Char → Bool) (r t d : List Char)
    (hrt : r ++ t = d) (hd : d.dropWhile p = d) : r.dropWhile p = r := by
  cases r with
  | nil => rfl
  | cons a r =>
    subst hrt
    rw [List.dropWhile_eq_self_iff] at hd ⊢
    intro _
    simpa using hd (by simp)

theorem jsTrim_idempotent (s : JsString) : jsTrim (jsTrim s) = jsTrim s := by
  unfold jsTrim
  obtain ⟨t, ht⟩ := List.rdropWhile_prefix isJsWhitespace (l := s.dropWhile isJsWhitespace)
  rw [dropWhile_fixed_of_append isJsWhitespace _ t _ ht (List.dropWhile_idempotent _ _),
    List.rdropWhile_idempotent]

/-! ## Lemmas on the result handler -/

namespace SpeechRecognitionManager

theorem updateTranscriptDisplay_finalTranscript (m : SpeechRecognitionManager) :
    (updateTranscriptDisplay m).finalTranscript = m.finalTranscript := by
  unfold updateTranscriptDisplay
  cases m.transcriptDisplay <;> rfl

theorem foldl_onresultItem_finalTranscript (items : List SpeechRecognitionResult)
    (m : SpeechRecognitionManager) :
    (items.foldl onresultItem m).finalTranscript =
      m.finalTranscript ++
        ((items.filter (·.isFinal)).map (·.transcript)).flatMap (· ++ separator) := by
  induction items generalizing m with
  | nil => simp
  | cons r items ih =>
    rw [List.foldl_cons, ih]
    cases hr : r.isFinal
    · simp [onresultItem, hr]
    · simp [onresultItem, hr, separator]

theorem onresult_finalTranscript (m : SpeechRecognitionManager) (e : SpeechRecognitionEvent) :
    (onresult m e).finalTranscript =
      m.finalTranscript ++ (deliveredFinals [e]).flatMap (· ++ separator) := by
  unfold onresult
  simp only [updateTranscriptDisplay_finalTranscript, foldl_onresultItem_finalTranscript]
  simp [deliveredFinals]

theorem foldl_onresult_finalTranscript (events : List SpeechRecognitionEvent)
    (m : SpeechRecognitionManager) :
    (events.foldl onresult m).finalTranscript =
      m.finalTranscript ++ (deliveredFinals events).flatMap (· ++ separator) := by
  induction events generalizing m with
  | nil => simp [deliveredFinals]
  | cons e events ih =>
    rw [List.foldl_cons, ih, onresult_finalTranscript]
    simp [deliveredFinals, List.append_assoc]

theorem clearTranscript_finalTranscript (m : SpeechRecognitionManager) :
    m.clearTranscript.finalTranscript = [] := by
  unfold clearTranscript
  rw [updateTranscriptDisplay_finalTranscript]

theorem start_finalTranscript (m : SpeechRecognitionManager) (h : m.recognition = true) :
    m.start.finalTranscript = [] := by
  unfold start
  simp only [h, Bool.true_eq_false, if_false]
  rw [updateTranscriptDisplay_finalTranscript]

end SpeechRecognitionManager

theorem flatMap_separator_eq (r : JsString) (rs : List JsString) :
    (r :: rs).flatMap (· ++ separator) = joinWithSeparator (r :: rs) ++ separator := by
  induction rs generalizing r with
  | nil => simp [joinWithSeparator]
  | cons r2 rs ih =>
    rw [List.flatMap_cons, ih r2]
    simp [joinWithSeparator, List.append_assoc]

theorem jsTrim_flatMap_separator (rs : List JsString) :
    jsTrim (rs.flatMap (· ++ separator)) = jsTrim (joinWithSeparator rs) := by
  cases rs with
  | nil => simp [joinWithSeparator]
  | cons r rs =>
    rw [flatMap_separator_eq]
    exact jsTrim_append_space _

/-! ## The transcript protocol -/

/-- C1: after `clearTranscript()`, or after `start()` on a manager that has a
recognition object, every run of result events (any number of events, interim
entries anywhere) leaves `getTranscript()` equal to the trim of the delivered
final results joined in arrival order with the separator, one blank, once
between consecutive results, and trimming that value again changes nothing. The
finals `"hello "` and `"world"` arriving in two events give `"hello  world"`. -/
theorem getTranscript_eq_trim_joined_finals (m : SpeechRecognitionManager)
    (events : List SpeechRecognitionEvent) :
    ((events.foldl SpeechRecognitionManager.onresult m.clearTranscript).getTranscript
        = jsTrim (joinWithSeparator (deliveredFinals events))) ∧
    (m.recognition = true →
      (events.foldl SpeechRecognitionManager.onresult m.start).getTranscript
        = jsTrim (joinWithSeparator (deliveredFinals events))) ∧
    (jsTrim (events.foldl SpeechRecognitionManager.onresult m.clearTranscript).getTranscript
        = (events.foldl SpeechRecognitionManager.onresult m.clearTranscript).getTranscript) ∧
    ((SpeechRecognitionManager.onresult
        (SpeechRecognitionManager.onresult m.clearTranscript
          { resultIndex := 0, results := [⟨"hello ".toList, true⟩] })
        { resultIndex := 1,
          results := [⟨"hello ".toList, true⟩, ⟨"world".toList, true⟩] }).getTranscript
        = "hello  world".toList) ∧
    jsTrim "hello  world".toList = "hello  world".toList := by
  refine ⟨?_, ?_, ?_, ?_, by decide⟩
  · unfold SpeechRecognitionManager.getTranscript
    rw [SpeechRecognitionManager.foldl_onresult_finalTranscript,
      SpeechRecognitionManager.clearTranscript_finalTranscript, List.nil_append,
      jsTrim_flatMap_separator]
  · intro h
    unfold SpeechRecognitionManager.getTranscript
    rw [SpeechRecognitionManager.foldl_onresult_finalTranscript,
      SpeechRecognitionManager.start_finalTranscript m h, List.nil_append,
      jsTrim_flatMap_separator]
  · exact jsTrim_idempotent _
  · unfold SpeechRecognitionManager.getTranscript
    rw [SpeechRecognitionManager.onresult_finalTranscript,
      SpeechRecognitionManager.onresult_finalTranscript,
      SpeechRecognitionManager.clearTranscript_finalTranscript]
    decide

/-- C1 at a concrete run: a manager with a recognition object and a stale
transcript is started, then three events arrive, with interim entries between
the finals `"hello "` and `"world"`. -/
theorem getTranscript_eq_trim_joined_finals_witness :
    ((([ { resultIndex := 0, results := [⟨"hel".toList, false⟩] },
         { resultIndex := 0, results := [⟨"hello ".toList, true⟩, ⟨"wor".toList, false⟩] },
         { resultIndex := 1, results := [⟨"hello ".toList, true⟩, ⟨"world".toList, true⟩] } ]
        : List SpeechRecognitionEvent).foldl SpeechRecognitionManager.onresult
        (SpeechRecognitionManager.start
          { recognition := true, finalTranscript := "stale ".toList })).getTranscript
      = "hello  world".toList) := by
  have h := (getTranscript_eq_trim_joined_finals
    { recognition := true, finalTranscript := "stale ".toList }
    [ { resultIndex := 0, results := [⟨"hel".toList, false⟩] },
      { resultIndex := 0, results := [⟨"hello ".toList, true⟩, ⟨"wor".toList, false⟩] },
      { resultIndex := 1, results := [⟨"hello ".toList, true⟩, ⟨"world".toList, true⟩] } ]).2.1 rfl
  rw [h]
  decide

/-- C2: `getTranscript()` is the trim of `finalTranscript` whatever
`interimTranscript` holds, so two states with the same `finalTranscript`
return the same string; a result event whose entries are all interim leaves
`getTranscript()` unchanged, and with it every effect of `submitAnswer`,
the body of the analyze-answer request included. -/
theorem getTranscript_ignores_interim (m₁ m₂ : SpeechRecognitionManager)
    (e : SpeechRecognitionEvent) (p : InterviewManager)
    (hfinal : m₁.finalTranscript = m₂.finalTranscript)
    (hinterim : ∀ r ∈ e.results, r.isFinal = false) :
    m₁.getTranscript = m₂.getTranscript ∧
    m₁.getTranscript = jsTrim m₁.finalTranscript ∧
    (m₁.onresult e).getTranscript = m₁.getTranscript ∧
    ({ p with speechManager := some (m₁.onresult e) }.submitAnswer).effects
      = ({ p with speechManager := some m₁ }.submitAnswer).effects := by
  have hfinals : deliveredFinals [e] = [] := by
    have hf : (e.results.drop e.resultIndex).filter (·.isFinal) = [] := by
      rw [List.filter_eq_nil_iff]
      intro r hr
      simp [hinterim r (List.mem_of_mem_drop hr)]
    simp [deliveredFinals, hf]
  have hsame : (m₁.onresult e).getTranscript = m₁.getTranscript := by
    unfold SpeechRecognitionManager.getTranscript
    rw [SpeechRecognitionManager.onresult_finalTranscript, hfinals]
    simp
  refine ⟨?_, rfl, hsame, ?_⟩
  · unfold SpeechRecognitionManager.getTranscript
    rw [hfinal]
  · by_cases hc : jsTrim p.answerText = [] ∧ jsTrim m₁.getTranscript = [] <;>
      cases hti : p.timerInterval <;>
      simp [InterviewManager.submitAnswer, InterviewManager.stopTimer,
        InterviewManager.transcriptOf, hti, hsame, hc]

/-- C2 at a concrete input: two states that differ only in their interim
text, and an event holding one interim entry. -/
theorem getTranscript_ignores_interim_witness :
    SpeechRecognitionManager.getTranscript
        { finalTranscript := "hello ".toList, interimTranscript := "wor".toList }
      = SpeechRecognitionManager.getTranscript
        { finalTranscript := "hello ".toList, interimTranscript := "world peace".toList } ∧
    (SpeechRecognitionManager.onresult
        { finalTranscript := "hello ".toList, interimTranscript := "wor".toList }
        { resultIndex := 0, results := [⟨"world".toList, false⟩] }).getTranscript
      = "hello".toList := by
  have h := getTranscript_ignores_interim
    { finalTranscript := "hello ".toList, interimTranscript := "wor".toList }
    { finalTranscript := "hello ".toList, interimTranscript := "world peace".toList }
    { resultIndex := 0, results := [⟨"world".toList, false⟩] } {} rfl (by decide)
  refine ⟨h.1, ?_⟩
  rw [h.2.2.1]
  decide

/-! ## Lemmas on the countdown -/

theorem lookup_filter_ne (h : Nat) (l : List (Nat × Nat)) :
    (l.filter (fun t => t.1 ≠ h)).lookup h = none := by
  rw [List.lookup_eq_none_iff]
  intro p hp
  have hp2 := (List.mem_filter.mp hp).2
  simp only [ne_eq, decide_not, Bool.not_eq_true', decide_eq_false_iff_not] at hp2
  simp only [bne_iff_ne, ne_eq]
  exact fun e => hp2 e.symm

theorem submitOutcomes_append (a b : List Effect) :
    submitOutcomes (a ++ b) = submitOutcomes a + submitOutcomes b := by
  simp [submitOutcomes, List.countP_append]

theorem submitOutcomes_notice :
    submitOutcomes [.alert "Please provide an answer before submitting.".toList] = 1 := by
  decide

theorem submitOutcomes_request (body : AnalyzeAnswerBody) :
    submitOutcomes [.fetchAnalyzeAnswer body] = 1 := rfl

theorem submitOutcomes_clearInterval (h : Nat) :
    submitOutcomes [.clearInterval h] = 0 := rfl

theorem submitOutcomes_setInterval (h d : Nat) :
    submitOutcomes [.setInterval h d] = 0 := rfl

theorem analyzeRequests_append (a b : List Effect) :
    analyzeRequests (a ++ b) = analyzeRequests a ++ analyzeRequests b := by
  simp [analyzeRequests, List.filterMap_append]

theorem analyzeRequests_alert (message : JsString) :
    analyzeRequests [.alert message] = [] := rfl

theorem analyzeRequests_request (body : AnalyzeAnswerBody) :
    analyzeRequests [.fetchAnalyzeAnswer body] = [body] := rfl

theorem analyzeRequests_clearInterval (h : Nat) :
    analyzeRequests [.clearInterval h] = [] := rfl

namespace InterviewManager

theorem stopTimer_analyzeRequests (m : InterviewManager) :
    analyzeRequests (stopTimer m).effects = analyzeRequests m.effects := by
  cases h : m.timerInterval
  · simp [stopTimer, h]
  · simp only [stopTimer, h, analyzeRequests_append, analyzeRequests_clearInterval,
      List.append_nil]

theorem stopTimer_of_none (m : InterviewManager) (h : m.timerInterval = none) :
    stopTimer m = m := by
  simp [stopTimer, h]

theorem stopTimer_timerInterval (m : InterviewManager) :
    (stopTimer m).timerInterval = none := by
  cases h : m.timerInterval <;> simp [stopTimer, h]

theorem stopTimer_timeLeft (m : InterviewManager) :
    (stopTimer m).timeLeft = m.timeLeft := by
  cases h : m.timerInterval <;> simp [stopTimer, h]

theorem stopTimer_nextTimerHandle (m : InterviewManager) :
    (stopTimer m).nextTimerHandle = m.nextTimerHandle := by
  cases h : m.timerInterval <;> simp [stopTimer, h]

theorem stopTimer_submitOutcomes (m : InterviewManager) :
    submitOutcomes (stopTimer m).effects = submitOutcomes m.effects := by
  cases h : m.timerInterval
  · simp [stopTimer, h]
  · simp only [stopTimer, h, submitOutcomes_append, submitOutcomes_clearInterval, Nat.add_zero]

theorem stopTimer_lookup (m : InterviewManager) (h : Nat) (hm : m.timerInterval = some h) :
    (stopTimer m).activeTimers.lookup h = none := by
  simp only [stopTimer, hm]
  exact lookup_filter_ne h m.activeTimers

theorem stopTimer_stopTimer (m : InterviewManager) :
    stopTimer (stopTimer m) = stopTimer m :=
  stopTimer_of_none _ (stopTimer_timerInterval m)

theorem submitAnswer_timerInterval (m : InterviewManager) :
    (submitAnswer m).timerInterval = none := by
  simp only [submitAnswer]
  split <;> simp [stopTimer_timerInterval]

theorem submitAnswer_activeTimers (m : InterviewManager) :
    (submitAnswer m).activeTimers = (stopTimer m).activeTimers := by
  simp only [submitAnswer]
  split <;> rfl

theorem submitAnswer_submitOutcomes (m : InterviewManager) :
    submitOutcomes (submitAnswer m).effects = submitOutcomes m.effects + 1 := by
  simp only [submitAnswer]
  split
  · simp only [submitOutcomes_append, submitOutcomes_notice, stopTimer_submitOutcomes]
  · simp only [submitOutcomes_append, submitOutcomes_request, stopTimer_submitOutcomes]

theorem tick_of_cleared (m : InterviewManager) (h : Nat)
    (hl : m.activeTimers.lookup h = none) : tick h m = m := by
  simp [tick, hl]

theorem ticks_of_cleared (m : InterviewManager) (h k : Nat)
    (hl : m.activeTimers.lookup h = none) : ticks h k m = m := by
  induction k with
  | zero => rfl
  | succ k ih => rw [ticks, tick_of_cleared m h hl, ih]

theorem ticks_add (h a b : Nat) (m : InterviewManager) :
    ticks h (a + b) m = ticks h b (ticks h a m) := by
  induction a generalizing m with
  | zero => simp [ticks]
  | succ a ih =>
    rw [show a + 1 + b = (a + b) + 1 by omega, ticks, ticks, ih]

theorem tick_running (m : InterviewManager) (h T : Nat)
    (hti : m.timerInterval = some h) (hl : m.activeTimers.lookup h = some T)
    (hn : 0 < m.timeLeft) :
    (tick h m).timerInterval = some h ∧ (tick h m).activeTimers = m.activeTimers ∧
    (tick h m).timeLeft = m.timeLeft - 1 ∧ (tick h m).effects = m.effects := by
  have hn2 : ¬ m.timeLeft ≤ 0 := by omega
  simp [tick, hl, timerCallback, hn2, updateTimerDisplay, hti]

theorem ticks_running (k : Nat) (m : InterviewManager) (h T : Nat)
    (hti : m.timerInterval = some h) (hl : m.activeTimers.lookup h = some T)
    (hk : k ≤ m.timeLeft) :
    (ticks h k m).timerInterval = some h ∧ (ticks h k m).activeTimers = m.activeTimers ∧
    (ticks h k m).timeLeft = m.timeLeft - k ∧ (ticks h k m).effects = m.effects := by
  induction k generalizing m with
  | zero => simp [ticks, hti]
  | succ k ih =>
    obtain ⟨h1, h2, h3, h4⟩ := tick_running m h T hti hl (by omega)
    obtain ⟨g1, g2, g3, g4⟩ := ih (tick h m) h1 (by rw [h2]; exact hl) (by rw [h3]; omega)
    rw [ticks]
    refine ⟨g1, by rw [g2, h2], by rw [g3, h3]; omega, by rw [g4, h4]⟩

theorem tick_timeout (m : InterviewManager) (h T : Nat)
    (hti : m.timerInterval = some h) (hl : m.activeTimers.lookup h = some T)
    (hz : m.timeLeft = 0) :
    tick h m = submitAnswer (stopTimer m) ∧
    (tick h m).timerInterval = none ∧ (tick h m).activeTimers.lookup h = none ∧
    submitOutcomes (tick h m).effects = submitOutcomes m.effects + 1 := by
  have ht : tick h m = submitAnswer (stopTimer m) := by
    simp [tick, hl, timerCallback, hz]
  refine ⟨ht, ?_, ?_, ?_⟩
  · rw [ht, submitAnswer_timerInterval]
  · rw [ht, submitAnswer_activeTimers, stopTimer_stopTimer, stopTimer_lookup m h hti]
  · rw [ht, submitAnswer_submitOutcomes, stopTimer_submitOutcomes]

theorem startTimer_running (m : InterviewManager) :
    (startTimer m).timerInterval = some m.nextTimerHandle ∧
    (startTimer m).activeTimers.lookup m.nextTimerHandle = some m.timeLeft ∧
    (startTimer m).timeLeft = m.timeLeft ∧
    submitOutcomes (startTimer m).effects = submitOutcomes m.effects := by
  unfold startTimer
  simp only [submitOutcomes_append, submitOutcomes_setInterval, stopTimer_submitOutcomes,
    stopTimer_nextTimerHandle, stopTimer_timeLeft, List.lookup_cons_self, Nat.add_zero,
    and_self]

end InterviewManager

/-! ## The countdown -/

/-- C3: a countdown started by `startTimer` with `timeLeft = N` and left alone
auto-invokes `submitAnswer` exactly once: no run of `submitAnswer` after `j ≤ N`
firings, exactly one after `N + 1` firings and after any further attempts, at
which point `timerInterval` is null, the interval is cleared and a later firing
changes nothing. When `submitAnswer` is invoked by hand after `j ≤ N` firings,
that is before the timeout firing, the interval is cleared at once, every later
firing of it changes nothing, and the only run of `submitAnswer` is the manual
one. -/
theorem countdown_submits_exactly_once (m : InterviewManager) (j extra : Nat)
    (hj : j ≤ m.timeLeft) :
    submitOutcomes (InterviewManager.ticks m.nextTimerHandle j m.startTimer).effects
      = submitOutcomes m.effects ∧
    submitOutcomes
        (InterviewManager.ticks m.nextTimerHandle (m.timeLeft + 1 + extra) m.startTimer).effects
      = submitOutcomes m.effects + 1 ∧
    (InterviewManager.ticks m.nextTimerHandle (m.timeLeft + 1 + extra) m.startTimer).timerInterval
      = none ∧
    (InterviewManager.ticks m.nextTimerHandle (m.timeLeft + 1 + extra)
        m.startTimer).activeTimers.lookup m.nextTimerHandle = none ∧
    InterviewManager.tick m.nextTimerHandle
        (InterviewManager.ticks m.nextTimerHandle (m.timeLeft + 1 + extra) m.startTimer)
      = InterviewManager.ticks m.nextTimerHandle (m.timeLeft + 1 + extra) m.startTimer ∧
    (InterviewManager.ticks m.nextTimerHandle j m.startTimer).submitAnswer.timerInterval
      = none ∧
    (InterviewManager.ticks m.nextTimerHandle j
        m.startTimer).submitAnswer.activeTimers.lookup m.nextTimerHandle = none ∧
    InterviewManager.ticks m.nextTimerHandle extra
        (InterviewManager.ticks m.nextTimerHandle j m.startTimer).submitAnswer
      = (InterviewManager.ticks m.nextTimerHandle j m.startTimer).submitAnswer ∧
    submitOutcomes (InterviewManager.ticks m.nextTimerHandle extra
        (InterviewManager.ticks m.nextTimerHandle j m.startTimer).submitAnswer).effects
      = submitOutcomes m.effects + 1 := by
  obtain ⟨s1, s2, s3, s4⟩ := InterviewManager.startTimer_running m
  -- the state after `j ≤ N` firings
  obtain ⟨a1, a2, _, a4⟩ :=
    InterviewManager.ticks_running j m.startTimer m.nextTimerHandle m.timeLeft s1 s2
      (by rw [s3]; exact hj)
  -- the state after `N` firings, and the timeout firing
  obtain ⟨b1, b2, b3, b4⟩ :=
    InterviewManager.ticks_running m.timeLeft m.startTimer m.nextTimerHandle m.timeLeft s1 s2
      (by rw [s3])
  obtain ⟨_, c2, c3, c4⟩ :=
    InterviewManager.tick_timeout
      (InterviewManager.ticks m.nextTimerHandle m.timeLeft m.startTimer)
      m.nextTimerHandle m.timeLeft b1 (by rw [b2]; exact s2) (by rw [b3, s3]; omega)
  have hstop : InterviewManager.ticks m.nextTimerHandle (m.timeLeft + 1 + extra) m.startTimer
      = InterviewManager.tick m.nextTimerHandle
          (InterviewManager.ticks m.nextTimerHandle m.timeLeft m.startTimer) := by
    rw [InterviewManager.ticks_add, InterviewManager.ticks_add]
    exact InterviewManager.ticks_of_cleared _ _ _ c3
  -- the manual submit after `j` firings
  have hman : (InterviewManager.ticks m.nextTimerHandle j
      m.startTimer).submitAnswer.activeTimers.lookup m.nextTimerHandle = none := by
    rw [InterviewManager.submitAnswer_activeTimers]
    exact InterviewManager.stopTimer_lookup _ _ a1
  have hfix := InterviewManager.ticks_of_cleared _ m.nextTimerHandle extra hman
  refine ⟨by rw [a4, s4], ?_, ?_, ?_, ?_, InterviewManager.submitAnswer_timerInterval _,
    hman, hfix, ?_⟩
  · rw [hstop, c4, b4, s4]
  · rw [hstop, c2]
  · rw [hstop, c3]
  · rw [hstop]
    exact InterviewManager.tick_of_cleared _ _ c3
  · rw [hfix, InterviewManager.submitAnswer_submitOutcomes, a4, s4]

/-- C3 at a concrete input: a countdown from 2 with the answer `a` typed; the
manual submit comes after both decrementing firings, racing the timeout one. -/
theorem countdown_submits_exactly_once_witness :
    submitOutcomes (InterviewManager.ticks 0 3
        (InterviewManager.startTimer { timeLeft := 2, answerText := ['a'] })).effects = 1 ∧
    submitOutcomes (InterviewManager.ticks 0 1
        (InterviewManager.ticks 0 2
          (InterviewManager.startTimer
            { timeLeft := 2, answerText := ['a'] })).submitAnswer).effects = 1 := by
  have h := countdown_submits_exactly_once { timeLeft := 2, answerText := ['a'] } 2 1
    (by decide)
  exact ⟨by decide, h.2.2.2.2.2.2.2.2⟩

/-- C4, refuted at `N = 1`: after the first firing `timeLeft` is 0, yet the
countdown is still running (`timerInterval` and the interval are still set) and
`submitAnswer` has not run; it runs on the second firing. -/
theorem countdown_not_stopped_on_Nth_firing :
    (InterviewManager.ticks 0 1 (InterviewManager.startTimer { timeLeft := 1 })).timeLeft = 0 ∧
    (InterviewManager.ticks 0 1 (InterviewManager.startTimer { timeLeft := 1 })).timerInterval
      = some 0 ∧
    (InterviewManager.ticks 0 1
      (InterviewManager.startTimer { timeLeft := 1 })).activeTimers.lookup 0 = some 1 ∧
    submitOutcomes
      (InterviewManager.ticks 0 1 (InterviewManager.startTimer { timeLeft := 1 })).effects = 0 ∧
    submitOutcomes
      (InterviewManager.ticks 0 2 (InterviewManager.startTimer { timeLeft := 1 })).effects = 1 ∧
    ¬ ((InterviewManager.ticks 0 1
          (InterviewManager.startTimer { timeLeft := 1 })).timerInterval = none ∧
        submitOutcomes (InterviewManager.ticks 0 1
          (InterviewManager.startTimer { timeLeft := 1 })).effects = 1) := by
  decide

/-- C4 as amended: a countdown started with `timeLeft = N` fires its callback
exactly `N + 1` times. Before each of the first `N` firings the interval is
set; after `k ≤ N` of them `timeLeft` is `N - k`, the countdown is still running
and `submitAnswer` has not run. The firing number `N + 1` finds `timeLeft = 0`:
it is a run of `stopTimer` followed by `submitAnswer`, after which the interval
is cleared and further firings change nothing. -/
theorem countdown_fires_once_more_than_timeLeft (m : InterviewManager) (k extra : Nat)
    (hk : k ≤ m.timeLeft) :
    (InterviewManager.ticks m.nextTimerHandle k m.startTimer).timeLeft = m.timeLeft - k ∧
    (InterviewManager.ticks m.nextTimerHandle k m.startTimer).timerInterval
      = some m.nextTimerHandle ∧
    (InterviewManager.ticks m.nextTimerHandle k m.startTimer).activeTimers.lookup
      m.nextTimerHandle = some m.timeLeft ∧
    submitOutcomes (InterviewManager.ticks m.nextTimerHandle k m.startTimer).effects
      = submitOutcomes m.effects ∧
    InterviewManager.ticks m.nextTimerHandle (m.timeLeft + 1) m.startTimer
      = (InterviewManager.ticks m.nextTimerHandle m.timeLeft
          m.startTimer).stopTimer.submitAnswer ∧
    (InterviewManager.ticks m.nextTimerHandle (m.timeLeft + 1) m.startTimer).timerInterval
      = none ∧
    (InterviewManager.ticks m.nextTimerHandle (m.timeLeft + 1) m.startTimer).activeTimers.lookup
      m.nextTimerHandle = none ∧
    submitOutcomes
        (InterviewManager.ticks m.nextTimerHandle (m.timeLeft + 1) m.startTimer).effects
      = submitOutcomes m.effects + 1 ∧
    InterviewManager.ticks m.nextTimerHandle extra
        (InterviewManager.ticks m.nextTimerHandle (m.timeLeft + 1) m.startTimer)
      = InterviewManager.ticks m.nextTimerHandle (m.timeLeft + 1) m.startTimer := by
  obtain ⟨s1, s2, s3, s4⟩ := InterviewManager.startTimer_running m
  obtain ⟨a1, a2, a3, a4⟩ :=
    InterviewManager.ticks_running k m.startTimer m.nextTimerHandle m.timeLeft s1 s2
      (by rw [s3]; exact hk)
  obtain ⟨b1, b2, b3, b4⟩ :=
    InterviewManager.ticks_running m.timeLeft m.startTimer m.nextTimerHandle m.timeLeft s1 s2
      (by rw [s3])
  obtain ⟨c1, c2, c3, c4⟩ :=
    InterviewManager.tick_timeout
      (InterviewManager.ticks m.nextTimerHandle m.timeLeft m.startTimer)
      m.nextTimerHandle m.timeLeft b1 (by rw [b2]; exact s2) (by rw [b3, s3]; omega)
  have hlast : InterviewManager.ticks m.nextTimerHandle (m.timeLeft + 1) m.startTimer
      = InterviewManager.tick m.nextTimerHandle
          (InterviewManager.ticks m.nextTimerHandle m.timeLeft m.startTimer) := by
    rw [InterviewManager.ticks_add]
    rfl
  refine ⟨by rw [a3, s3], a1, by rw [a2]; exact s2, by rw [a4, s4], by rw [hlast, c1],
    by rw [hlast, c2], by rw [hlast, c3], by rw [hlast, c4, b4, s4], ?_⟩
  exact InterviewManager.ticks_of_cleared _ _ _ (by rw [hlast, c3])

/-- C4 as amended, at a countdown from 1: one decrementing firing, and the second
firing submits. -/
theorem countdown_fires_once_more_than_timeLeft_witness :
    (InterviewManager.ticks 0 1 (InterviewManager.startTimer { timeLeft := 1 })).timeLeft = 0 ∧
    submitOutcomes
      (InterviewManager.ticks 0 2 (InterviewManager.startTimer { timeLeft := 1 })).effects
      = 1 := by
  have h := countdown_fires_once_more_than_timeLeft { timeLeft := 1 } 1 0 (by decide)
  exact ⟨h.1, h.2.2.2.2.2.2.2.1⟩

/-! ## Submitting an answer -/

/-- C5, the code at the failing input: the question allocates 60 seconds, the
countdown started by the constructor has fired 15 times (45 seconds remain) and
the user clicks submit. The request carries `duration = 75 = 120 - 45`, not the
`60 - 45 = 15` seconds spent; and in every state the duration sent is
`120 - timeLeft`. -/
theorem submitAnswer_duration_counts_from_120 :
    (InterviewManager.ticks 0 15 (sampleSession 60)).timeLeft = 45 ∧
    analyzeRequests
        (InterviewManager.clickSubmit (InterviewManager.ticks 0 15 (sampleSession 60))).effects
      = [{ question_id := "7".toList, answer_text := ['a'], transcript := [],
           duration := 75 }] ∧
    ((75 : Int) ≠ 60 - 45) ∧
    ∀ m : InterviewManager, ∀ body ∈ analyzeRequests m.submitAnswer.effects,
      body ∈ analyzeRequests m.effects ∨ body.duration = 120 - (m.timeLeft : Int) := by
  refine ⟨by decide, by decide, by decide, ?_⟩
  intro m body hb
  simp only [InterviewManager.submitAnswer] at hb
  split at hb
  · left
    simpa only [analyzeRequests_append, analyzeRequests_alert, List.append_nil,
      InterviewManager.stopTimer_analyzeRequests] using hb
  · simp only [analyzeRequests_append, analyzeRequests_request, List.mem_append,
      InterviewManager.stopTimer_analyzeRequests, List.mem_singleton] at hb
    rcases hb with hb | hb
    · exact Or.inl hb
    · right
      rw [hb, InterviewManager.stopTimer_timeLeft]

/-- C6, the code at the failing input: the first question allocates 1 second
and the user clicks submit, so one analyze-answer request is in flight and the
submit control is disabled. The user then clicks `#start-timer`; the restarted
countdown fires twice and its timeout firing runs `submitAnswer` again, which
issues a second analyze-answer request while the first one is unanswered. -/
theorem submitAnswer_runs_again_while_in_flight :
    analyzeRequests (InterviewManager.clickSubmit (sampleSession 1)).effects
      = [{ question_id := "7".toList, answer_text := ['a'], transcript := [],
           duration := 119 }] ∧
    (InterviewManager.clickSubmit (sampleSession 1)).submitBtn.disabled = true ∧
    analyzeRequests
        (InterviewManager.ticks 1 2
          (InterviewManager.clickStartTimer
            (InterviewManager.clickSubmit (sampleSession 1)))).effects
      = [{ question_id := "7".toList, answer_text := ['a'], transcript := [],
           duration := 119 },
         { question_id := "7".toList, answer_text := ['a'], transcript := [],
           duration := 120 }] := by
  decide

/-- C7: in every run of `submitAnswer`, from every state, `stopTimer` runs
before anything else. The effects of the run are the ones of `stopTimer` (the
`clearInterval` of the running countdown, if any) followed by exactly one more,
the validation notice or the analyze-answer request; the request is issued from
the state `stopTimer` left, with `timerInterval` null; and the interval of the
stopped countdown is cleared, so none of its later firings changes anything. -/
theorem submitAnswer_stops_countdown_first (m : InterviewManager) :
    m.submitAnswer.timerInterval = none ∧
    m.stopTimer.timerInterval = none ∧
    m.stopTimer.effects
      = m.effects ++ (m.timerInterval.toList.map Effect.clearInterval) ∧
    (∃ outcome, m.submitAnswer.effects = m.stopTimer.effects ++ [outcome] ∧
      (∀ h, outcome ≠ Effect.clearInterval h) ∧
      analyzeRequests m.submitAnswer.effects
        = analyzeRequests m.effects ++ analyzeRequests [outcome]) ∧
    (∀ h, m.timerInterval = some h →
      m.submitAnswer.activeTimers.lookup h = none ∧
      ∀ k, InterviewManager.ticks h k m.submitAnswer = m.submitAnswer) := by
  refine ⟨InterviewManager.submitAnswer_timerInterval m,
    InterviewManager.stopTimer_timerInterval m, ?_, ?_, ?_⟩
  · cases h : m.timerInterval <;> simp [InterviewManager.stopTimer, h]
  · simp only [InterviewManager.submitAnswer]
    split
    · exact ⟨_, rfl, fun h => by simp, by
        rw [analyzeRequests_append, InterviewManager.stopTimer_analyzeRequests]⟩
    · exact ⟨_, rfl, fun h => by simp, by
        rw [analyzeRequests_append, InterviewManager.stopTimer_analyzeRequests]⟩
  · intro h hm
    have hl : m.submitAnswer.activeTimers.lookup h = none := by
      rw [InterviewManager.submitAnswer_activeTimers]
      exact InterviewManager.stopTimer_lookup m h hm
    exact ⟨hl, fun k => InterviewManager.ticks_of_cleared _ h k hl⟩

/-- C7 at a concrete input: the sample session, whose countdown (interval 0) is
running, is submitted; the effects end in `clearInterval 0` and then the
request, and the interval no longer fires. -/
theorem submitAnswer_stops_countdown_first_witness :
    (sampleSession 60).timerInterval = some 0 ∧
    (sampleSession 60).submitAnswer.effects
      = [.fetchNextQuestion, .setInterval 0 1000, .clearInterval 0,
         .fetchAnalyzeAnswer { question_id := "7".toList, answer_text := ['a'],
                               transcript := [], duration := 60 }] ∧
    InterviewManager.ticks 0 61 (sampleSession 60).submitAnswer
      = (sampleSession 60).submitAnswer := by
  refine ⟨by decide, by decide, ?_⟩
  exact ((submitAnswer_stops_countdown_first (sampleSession 60)).2.2.2.2 0 (by decide)).2 61

/-- C8: when the typed answer and the transcript are both empty or made of
white space only, `submitAnswer` stops the countdown, shows the
`Please provide an answer` notice and does nothing else: no analyze-answer
request, and the submit control keeps its state and label. When one of the two
holds a character that is not white space, the request is issued, carrying the
question id, the answer text, the transcript and the duration. The transcript
that `submitAnswer` reads is white space only exactly when `finalTranscript`
is. -/
theorem submitAnswer_rejects_blank_answer (m : InterviewManager) :
    ((∀ c ∈ m.answerText, isJsWhitespace c = true) ∧
        (∀ c ∈ m.transcriptOf, isJsWhitespace c = true) →
      m.submitAnswer = { m.stopTimer with effects := m.stopTimer.effects ++
          [.alert "Please provide an answer before submitting.".toList] } ∧
      analyzeRequests m.submitAnswer.effects = analyzeRequests m.effects ∧
      m.submitAnswer.submitBtn = m.submitBtn) ∧
    ((∃ c ∈ m.answerText, isJsWhitespace c = false) ∨
        (∃ c ∈ m.transcriptOf, isJsWhitespace c = false) →
      analyzeRequests m.submitAnswer.effects = analyzeRequests m.effects ++
        [{ question_id := m.currentQuestionId, answer_text := m.answerText,
           transcript := m.transcriptOf, duration := 120 - (m.timeLeft : Int) }] ∧
      m.submitAnswer.submitBtn.disabled = true) ∧
    ((∀ c ∈ m.transcriptOf, isJsWhitespace c = true) ↔
      ∀ sm, m.speechManager = some sm → ∀ c ∈ sm.finalTranscript, isJsWhitespace c = true) := by
  have hans : m.stopTimer.answerText = m.answerText := by
    cases h : m.timerInterval <;> simp [InterviewManager.stopTimer, h]
  have htr : m.stopTimer.transcriptOf = m.transcriptOf := by
    cases h : m.timerInterval <;>
      simp [InterviewManager.stopTimer, InterviewManager.transcriptOf, h]
  have hbtn : m.stopTimer.submitBtn = m.submitBtn := by
    cases h : m.timerInterval <;> simp [InterviewManager.stopTimer, h]
  have hid : m.stopTimer.currentQuestionId = m.currentQuestionId := by
    cases h : m.timerInterval <;> simp [InterviewManager.stopTimer, h]
  refine ⟨?_, ?_, ?_⟩
  · rintro ⟨ha, ht⟩
    have hc : jsTrim m.stopTimer.answerText = [] ∧ jsTrim m.stopTimer.transcriptOf = [] := by
      rw [hans, htr]
      exact ⟨(jsTrim_eq_nil_iff _).mpr ha, (jsTrim_eq_nil_iff _).mpr ht⟩
    have he : m.submitAnswer = { m.stopTimer with effects := m.stopTimer.effects ++
        [.alert "Please provide an answer before submitting.".toList] } := by
      simp only [InterviewManager.submitAnswer, hc, and_self, if_true]
    refine ⟨he, ?_, ?_⟩
    · rw [he]
      simp only [analyzeRequests_append, analyzeRequests_alert, List.append_nil,
        InterviewManager.stopTimer_analyzeRequests]
    · rw [he]
      exact hbtn
  · intro h
    have hc : ¬ (jsTrim m.stopTimer.answerText = [] ∧ jsTrim m.stopTimer.transcriptOf = []) := by
      rw [hans, htr, jsTrim_eq_nil_iff, jsTrim_eq_nil_iff]
      rintro ⟨ha, ht⟩
      rcases h with ⟨c, hc, hw⟩ | ⟨c, hc, hw⟩
      · rw [ha c hc] at hw
        exact Bool.noConfusion hw
      · rw [ht c hc] at hw
        exact Bool.noConfusion hw
    simp only [InterviewManager.submitAnswer, if_neg hc]
    simp only [analyzeRequests_append, analyzeRequests_request,
      InterviewManager.stopTimer_analyzeRequests, hans, htr, hid,
      InterviewManager.stopTimer_timeLeft, and_self]
  · cases hsm : m.speechManager with
    | none => simp [InterviewManager.transcriptOf, hsm]
    | some sm =>
      simp only [InterviewManager.transcriptOf, hsm, Option.some.injEq, forall_eq']
      unfold SpeechRecognitionManager.getTranscript
      rw [← jsTrim_eq_nil_iff, ← jsTrim_eq_nil_iff, jsTrim_idempotent]

/-- C8 at concrete inputs: blanks in the answer and in the transcript are
rejected; a transcript holding a word is submitted. -/
theorem submitAnswer_rejects_blank_answer_witness :
    analyzeRequests (InterviewManager.submitAnswer
        { answerText := " \n".toList,
          speechManager := some { finalTranscript := "  ".toList } }).effects = [] ∧
    analyzeRequests (InterviewManager.submitAnswer
        { answerText := " \n".toList,
          speechManager := some { finalTranscript := "yes ".toList } }).effects
      = [{ question_id := [], answer_text := " \n".toList, transcript := "yes".toList,
           duration := 0 }] := by
  have h1 := ((submitAnswer_rejects_blank_answer
    { answerText := " \n".toList,
      speechManager := some { finalTranscript := "  ".toList } }).1 (by decide)).2.1
  have h2 := ((submitAnswer_rejects_blank_answer
    { answerText := " \n".toList,
      speechManager := some { finalTranscript := "yes ".toList } }).2.1
      (Or.inr ⟨'y', by decide, by decide⟩)).1
  exact ⟨h1, h2⟩

/-! ## Loading a question -/

/-- C9: when the next-question request is answered `{status: "completed"}`,
the continuations of `loadQuestions` and of `nextQuestion` do the same thing
from every state: they show the completion notice and set the location to
`/coding-test`, and change nothing else. So the displayed question, the stored
question list and the countdown value stay as they were, and no analyze-answer
request is issued, neither by the continuations nor by the parts of the two
methods that issue the next-question request. -/
theorem completed_reply_navigates_to_coding_test (toUpperCase : JsString → JsString)
    (m : InterviewManager) :
    InterviewManager.loadQuestionsReply toUpperCase m .completed
      = { m with effects := m.effects ++
          [.alert "All questions completed! Moving to coding test...".toList,
           .navigate "/coding-test".toList] } ∧
    InterviewManager.nextQuestionReply toUpperCase m .completed
      = InterviewManager.loadQuestionsReply toUpperCase m .completed ∧
    (InterviewManager.loadQuestionsReply toUpperCase m .completed).questions = m.questions ∧
    (InterviewManager.loadQuestionsReply toUpperCase m .completed).questionText
      = m.questionText ∧
    (InterviewManager.loadQuestionsReply toUpperCase m .completed).currentQuestionId
      = m.currentQuestionId ∧
    (InterviewManager.loadQuestionsReply toUpperCase m .completed).questionCounter
      = m.questionCounter ∧
    (InterviewManager.loadQuestionsReply toUpperCase m .completed).timeLeft = m.timeLeft ∧
    Effect.navigate "/coding-test".toList
      ∈ (InterviewManager.loadQuestionsReply toUpperCase m .completed).effects ∧
    analyzeRequests (InterviewManager.loadQuestionsReply toUpperCase m .completed).effects
      = analyzeRequests m.effects ∧
    analyzeRequests m.loadQuestions.effects = analyzeRequests m.effects ∧
    analyzeRequests m.nextQuestion.effects = analyzeRequests m.effects := by
  refine ⟨rfl, rfl, rfl, rfl, rfl, rfl, rfl, ?_, ?_, ?_, ?_⟩
  · simp [InterviewManager.loadQuestionsReply, InterviewManager.showCompletionMessage]
  · simp [InterviewManager.loadQuestionsReply, InterviewManager.showCompletionMessage,
      analyzeRequests, List.filterMap_append]
  · simp [InterviewManager.loadQuestions, analyzeRequests, List.filterMap_append]
  · simp [InterviewManager.nextQuestion, analyzeRequests, List.filterMap_append]

/-- C10, refuted: a payload whose allocated time is present and is the whole
number 0 leaves `timeLeft` at 120, not at 0; so `timeLeft` is 120 although the
allocated time is not absent. -/
theorem displayQuestion_zero_allocation_gives_120 :
    (InterviewManager.displayQuestion id {}
        { sampleQuestion with time_allocated := some 0 }).timeLeft = 120 ∧
    (InterviewManager.displayQuestion id {}
        { sampleQuestion with time_allocated := some 0 }).timeLeft ≠ 0 ∧
    ({ sampleQuestion with time_allocated := some 0 } : Question).time_allocated ≠ none ∧
    (InterviewManager.loadQuestionsReply id (InterviewManager.construct {})
        (.success { sampleQuestion with time_allocated := some 0 })).timeLeft = 120 := by
  decide

/-- C10 as amended: after a question is loaded and displayed (by
`displayQuestion`, and so by the continuations of `loadQuestions` and
`nextQuestion` on a `success` reply), `timeLeft` equals the allocated time when
that is a whole number of at least 1, and equals 120 when the allocated time is
absent or 0. -/
theorem displayQuestion_timeLeft (toUpperCase : JsString → JsString)
    (m : InterviewManager) (question : Question) :
    (∀ n, question.time_allocated = some n → 1 ≤ n →
      (InterviewManager.displayQuestion toUpperCase m question).timeLeft = n) ∧
    (question.time_allocated = none ∨ question.time_allocated = some 0 →
      (InterviewManager.displayQuestion toUpperCase m question).timeLeft = 120) ∧
    (InterviewManager.loadQuestionsReply toUpperCase m (.success question)).timeLeft
      = (InterviewManager.displayQuestion toUpperCase m question).timeLeft ∧
    (InterviewManager.nextQuestionReply toUpperCase m (.success question)).timeLeft
      = (InterviewManager.displayQuestion toUpperCase m question).timeLeft := by
  have ht : (InterviewManager.displayQuestion toUpperCase m question).timeLeft
      = orDefault question.time_allocated 120 := rfl
  refine ⟨?_, ?_, rfl, rfl⟩
  · intro n hn h1
    have h0 : n ≠ 0 := by omega
    rw [ht, hn]
    simp [orDefault, h0]
  · rintro (h | h) <;> rw [ht, h] <;> rfl

/-- C10 as amended, at concrete payloads: 60 seconds allocated, and none. -/
theorem displayQuestion_timeLeft_witness :
    (InterviewManager.displayQuestion id {} sampleQuestion).timeLeft = 60 ∧
    (InterviewManager.displayQuestion id {}
        { sampleQuestion with time_allocated := none }).timeLeft = 120 := by
  exact ⟨(displayQuestion_timeLeft id {} sampleQuestion).1 60 rfl (by decide),
    (displayQuestion_timeLeft id {} { sampleQuestion with time_allocated := none }).2.1
      (Or.inl rfl)⟩

/-! ## Lemmas on the progress arc and the timer text -/

theorem progressOffset_of_pos (timeLeft totalTime : Nat) (h : 1 ≤ totalTime) :
    progressOffset timeLeft totalTime
      = .finite (circumference * (1 - (timeLeft : ℚ) / (totalTime : ℚ))) := by
  have h0 : totalTime ≠ 0 := by omega
  simp only [progressOffset, h0, if_false]
  congr 1
  ring

namespace InterviewManager

theorem tick_strokeDashoffset (m : InterviewManager) (h T : Nat)
    (hl : m.activeTimers.lookup h = some T) (hn : 0 < m.timeLeft) :
    (tick h m).strokeDashoffset = some (progressOffset (m.timeLeft - 1) T) := by
  have hn2 : ¬ m.timeLeft ≤ 0 := by omega
  simp [tick, hl, timerCallback, hn2, updateTimerDisplay]

theorem ticks_strokeDashoffset (k : Nat) (m : InterviewManager) (h T : Nat)
    (hti : m.timerInterval = some h) (hl : m.activeTimers.lookup h = some T)
    (hk : k + 1 ≤ m.timeLeft) :
    (ticks h (k + 1) m).strokeDashoffset = some (progressOffset (m.timeLeft - (k + 1)) T) := by
  obtain ⟨_, a2, a3, _⟩ := ticks_running k m h T hti hl (by omega)
  rw [ticks_add]
  show (tick h (ticks h k m)).strokeDashoffset = _
  rw [tick_strokeDashoffset (ticks h k m) h T (by rw [a2]; exact hl) (by rw [a3]; omega), a3]
  congr 2

theorem tick_timeout_strokeDashoffset (m : InterviewManager) (h T : Nat)
    (hl : m.activeTimers.lookup h = some T) (hz : m.timeLeft = 0) :
    (tick h m).strokeDashoffset = m.strokeDashoffset := by
  have ht : tick h m = submitAnswer (stopTimer m) := by
    simp [tick, hl, timerCallback, hz]
  rw [ht]
  simp only [submitAnswer]
  split <;> cases hti : m.timerInterval <;> simp [stopTimer, hti]

end InterviewManager

theorem digitValue_digitChar (k : Nat) (hk : k < 10) : digitValue (Nat.digitChar k) = k := by
  interval_cases k <;> decide

theorem foldl_toDigitsCore (fuel n : Nat) (ds : List Char) (h : n < fuel) :
    (Nat.toDigitsCore 10 fuel n ds).foldl (fun acc c => 10 * acc + digitValue c) 0
      = ds.foldl (fun acc c => 10 * acc + digitValue c) n := by
  induction fuel generalizing n ds with
  | zero => omega
  | succ fuel ih =>
    simp only [Nat.toDigitsCore]
    split
    · rename_i h0
      have hn : n < 10 := by
        by_contra hc
        have := Nat.div_pos (Nat.le_of_not_lt hc) (by decide : 0 < 10)
        omega
      rw [List.foldl_cons, Nat.mod_eq_of_lt hn, digitValue_digitChar n hn, Nat.mul_zero,
        Nat.zero_add]
    · rename_i h0
      have hlt : n / 10 < fuel := by
        have : n / 10 < n := Nat.div_lt_self (by
          by_contra hc
          have : n = 0 := by omega
          simp [this] at h0) (by decide)
        omega
      rw [ih (n / 10) _ hlt]
      simp only [List.foldl_cons, digitValue_digitChar _ (Nat.mod_lt n (by decide))]
      congr 1
      omega

theorem readDecimal_decimalDigits (n : Nat) : readDecimal (decimalDigits n) = n := by
  unfold readDecimal decimalDigits Nat.toDigits
  rw [foldl_toDigitsCore (n + 1) n [] (by omega)]
  rfl

theorem readDecimal_padStart (s : JsString) (k : Nat) :
    readDecimal (padStart s k '0') = readDecimal s := by
  unfold padStart readDecimal
  rw [List.foldl_append]
  congr 1
  induction (k - s.length) with
  | zero => rfl
  | succ j ih =>
    rw [List.replicate_succ, List.foldl_cons]
    exact ih

theorem decimalDigits_length_le (n e : Nat) (h : n < 10 ^ e) (he : 0 < e) :
    (decimalDigits n).length ≤ e :=
  Nat.toDigitsCore_length 10 (by decide) (n + 1) n e h he

theorem padStart_length (s : JsString) (k : Nat) (c : Char) :
    (padStart s k c).length = max k s.length := by
  unfold padStart
  rw [List.length_append, List.length_replicate]
  omega

/-! ## Lemmas on whole numbers held by doubles -/

theorem binaryExponentAux_eq_log2 (fuel q : Nat) (h : q ≤ fuel) :
    binaryExponentAux fuel q = Nat.log2 q := by
  induction fuel generalizing q with
  | zero =>
    have hq : q = 0 := by omega
    subst hq
    rw [Nat.log2]
    simp [binaryExponentAux]
  | succ fuel ih =>
    rw [Nat.log2]
    by_cases h2 : q < 2
    · have : ¬ q ≥ 2 := by omega
      simp [binaryExponentAux, h2, this]
    · have : q ≥ 2 := by omega
      simp only [binaryExponentAux, h2, if_false, this, if_true]
      rw [ih (q / 2) (by omega)]

theorem binaryExponent_eq_log2 (q : Nat) : binaryExponent q = Nat.log2 q :=
  binaryExponentAux_eq_log2 q q (Nat.le_refl q)

theorem le_roundHalfEven (a b : Nat) : a / b ≤ roundHalfEven a b := by
  unfold roundHalfEven
  simp only
  split
  · exact Nat.le_refl _
  · split
    · omega
    · split <;> omega

theorem toDouble_of_lt (c : Nat) (h : c < 2 ^ 53) : toDouble c = c := by
  unfold toDouble
  rw [if_pos h]

theorem le_toDouble (c : Nat) (h : 2 ^ 53 ≤ c) : 2 ^ 53 ≤ toDouble c := by
  have hc0 : c ≠ 0 := by
    have : 0 < 2 ^ 53 := by decide
    omega
  have hlog : 53 ≤ Nat.log2 c := (Nat.le_log2 hc0).mpr h
  have hnot : ¬ c < 2 ^ 53 := by omega
  simp only [toDouble, hnot, if_false, binaryExponent_eq_log2]
  have hpow : 2 ^ 52 * 2 ^ (Nat.log2 c - 52) ≤ c := by
    rw [← Nat.pow_add, show 52 + (Nat.log2 c - 52) = Nat.log2 c by omega]
    exact Nat.log2_self_le hc0
  have hP : 0 < 2 ^ (Nat.log2 c - 52) := Nat.pow_pos (by decide)
  have hq : 2 ^ 52 ≤ c / 2 ^ (Nat.log2 c - 52) := (Nat.le_div_iff_mul_le hP).mpr hpow
  have hr := le_roundHalfEven c (2 ^ (Nat.log2 c - 52))
  have h2 : 2 ^ 1 ≤ 2 ^ (Nat.log2 c - 52) := Nat.pow_le_pow_right (by decide) (by omega)
  calc 2 ^ 53 = 2 ^ 52 * 2 ^ 1 := by decide
    _ ≤ roundHalfEven c (2 ^ (Nat.log2 c - 52)) * 2 ^ (Nat.log2 c - 52) :=
      Nat.mul_le_mul (Nat.le_trans hq hr) h2

theorem eq_of_toDouble_eq (c x : Nat) (hx : x < 2 ^ 53) (h : toDouble c = x) : c = x := by
  by_cases hc : c < 2 ^ 53
  · rw [toDouble_of_lt c hc] at h
    exact h
  · have := le_toDouble c (by omega)
    omega

theorem shortestDecimal_of_lt (x p : Nat) (hx : x < 2 ^ 53) : (shortestDecimal x p).1 = x := by
  induction p with
  | zero => rfl
  | succ p ih =>
    simp only [shortestDecimal]
    split
    · rename_i hboth
      split
      · exact eq_of_toDouble_eq _ x hx hboth.1
      · split
        · exact eq_of_toDouble_eq _ x hx hboth.2
        · split
          · exact eq_of_toDouble_eq _ x hx hboth.1
          · exact eq_of_toDouble_eq _ x hx hboth.2
    · split
      · rename_i hd
        exact eq_of_toDouble_eq _ x hx hd
      · split
        · rename_i hu
          exact eq_of_toDouble_eq _ x hx hu
        · exact ih

theorem numberToString_of_lt (n : Nat) (h : n < 2 ^ 53) : numberToString n = decimalDigits n := by
  have hlen : (decimalDigits n).length ≤ 21 :=
    decimalDigits_length_le n 21 (Nat.lt_trans h (by decide)) (by decide)
  simp only [numberToString, shortestDecimal_of_lt n _ h, hlen, if_true]

theorem roundHalfEven_mul_div (t P : Nat) (hP : 32 ≤ P) :
    roundHalfEven (t * P) 60 / P = t / 60 := by
  have hX : t % 60 * P ≤ 59 * P := Nat.mul_le_mul_right P (by omega)
  have ha : t * P = 60 * (t / 60 * P) + t % 60 * P := by
    have := Nat.div_add_mod t 60
    calc t * P = (60 * (t / 60) + t % 60) * P := by rw [this]
      _ = 60 * (t / 60 * P) + t % 60 * P := by ring
  generalize t * P = a at ha
  generalize t % 60 * P = X at ha hX
  generalize hY : t / 60 * P = Y at ha
  have hbounds : Y ≤ roundHalfEven a 60 ∧ roundHalfEven a 60 < Y + P := by
    unfold roundHalfEven
    simp only
    split
    · omega
    · split
      · omega
      · split <;> omega
  apply Nat.div_eq_of_lt_le
  · rw [hY]; exact hbounds.1
  · rw [Nat.add_mul, hY, Nat.one_mul]; exact hbounds.2

theorem floorOfQuotient_of_le (t : Nat) (h : t ≤ 2 ^ 53) : floorOfQuotient t 60 = t / 60 := by
  unfold floorOfQuotient
  simp only
  split
  · rename_i h0
    exact h0.symm
  · rename_i h0
    have hq : t / 60 < 2 ^ 48 := by
      have : (2 : Nat) ^ 53 = 9007199254740992 := by decide
      have : (2 : Nat) ^ 48 = 281474976710656 := by decide
      omega
    have he : Nat.log2 (t / 60) < 48 := (Nat.log2_lt h0).mpr hq
    rw [binaryExponent_eq_log2]
    have hnot : ¬ 52 ≤ Nat.log2 (t / 60) := by omega
    rw [if_neg hnot]
    apply roundHalfEven_mul_div
    calc 32 = 2 ^ 5 := by decide
      _ ≤ 2 ^ (52 - Nat.log2 (t / 60)) := Nat.pow_le_pow_right (by decide) (by omega)

theorem isDigit_digitChar (k : Nat) (hk : k < 10) : (Nat.digitChar k).isDigit = true := by
  interval_cases k <;> decide

theorem isDigit_toDigitsCore (fuel n : Nat) (ds : List Char)
    (hds : ∀ c ∈ ds, c.isDigit = true) :
    ∀ c ∈ Nat.toDigitsCore 10 fuel n ds, c.isDigit = true := by
  induction fuel generalizing n ds with
  | zero => simpa [Nat.toDigitsCore] using hds
  | succ fuel ih =>
    have hd : ∀ c ∈ Nat.digitChar (n % 10) :: ds, c.isDigit = true := by
      intro c hc
      rcases List.mem_cons.mp hc with rfl | hc
      · exact isDigit_digitChar _ (Nat.mod_lt n (by decide))
      · exact hds c hc
    simp only [Nat.toDigitsCore]
    split
    · exact hd
    · exact ih _ _ hd

theorem isDigit_padStart_decimalDigits (n k : Nat) :
    ∀ c ∈ padStart (decimalDigits n) k '0', c.isDigit = true := by
  intro c hc
  rcases List.mem_append.mp hc with hc | hc
  · rw [(List.mem_replicate.mp hc).2]
    decide
  · exact isDigit_toDigitsCore (n + 1) n [] (by simp) c hc

/-! ## The progress arc and the timer text -/

/-- C11, the code at the failing input: `init` starts the countdown before the
first question arrives, so `startTimer` captures `totalTime = 120`, the value
the constructor put in `timeLeft`. When the first question, which allocates 60
seconds, is displayed, the first firing writes the offset for `59 / 120`, an
arc half spent, not for `59 / 60`; for a question that allocates 300 seconds
it writes a negative offset. Likewise, when that countdown has fired 30 times
and the user clicks `#start-timer`, the restarted countdown captures
`totalTime = 30` and its first firing writes the offset for `29 / 30`, not for
`29 / 60`. -/
theorem progress_offset_not_relative_to_allocated_time :
    (InterviewManager.tick 0 (sampleSession 60)).timeLeft = 59 ∧
    (InterviewManager.tick 0 (sampleSession 60)).strokeDashoffset
      = some (.finite (circumference * (1 - (59 : ℚ) / 120))) ∧
    (InterviewManager.tick 0 (sampleSession 60)).strokeDashoffset
      ≠ some (.finite (circumference * (1 - (59 : ℚ) / 60))) ∧
    (InterviewManager.tick 1 (InterviewManager.clickStartTimer
        (InterviewManager.ticks 0 30 (sampleSession 60)))).timeLeft = 29 ∧
    (InterviewManager.tick 1 (InterviewManager.clickStartTimer
        (InterviewManager.ticks 0 30 (sampleSession 60)))).strokeDashoffset
      = some (.finite (circumference * (1 - (29 : ℚ) / 30))) ∧
    (InterviewManager.tick 1 (InterviewManager.clickStartTimer
        (InterviewManager.ticks 0 30 (sampleSession 60)))).strokeDashoffset
      ≠ some (.finite (circumference * (1 - (29 : ℚ) / 60))) ∧
    (InterviewManager.tick 0 (sampleSession 300)).strokeDashoffset
      = some (.finite (-365339 / 750)) := by
  have h3 : (InterviewManager.tick 0 (sampleSession 300)).strokeDashoffset
      = some (.finite (-365339 / 750)) := by
    rw [InterviewManager.tick_strokeDashoffset (sampleSession 300) 0 120 (by decide)
        (by decide),
      show (sampleSession 300).timeLeft - 1 = 299 by decide,
      progressOffset_of_pos 299 120 (by decide)]
    norm_num [circumference]
  have h1 : (InterviewManager.tick 0 (sampleSession 60)).strokeDashoffset
      = some (.finite (circumference * (1 - (59 : ℚ) / 120))) := by
    rw [InterviewManager.tick_strokeDashoffset (sampleSession 60) 0 120 (by decide) (by decide),
      show (sampleSession 60).timeLeft - 1 = 59 by decide,
      progressOffset_of_pos 59 120 (by decide)]
    norm_num
  have h2 : (InterviewManager.tick 1 (InterviewManager.clickStartTimer
        (InterviewManager.ticks 0 30 (sampleSession 60)))).strokeDashoffset
      = some (.finite (circumference * (1 - (29 : ℚ) / 30))) := by
    rw [InterviewManager.tick_strokeDashoffset _ 1 30 (by decide) (by decide),
      show (InterviewManager.clickStartTimer
        (InterviewManager.ticks 0 30 (sampleSession 60))).timeLeft - 1 = 29 by decide,
      progressOffset_of_pos 29 30 (by decide)]
    norm_num
  refine ⟨by decide, h1, ?_, by decide, h2, ?_, h3⟩
  · rw [h1]
    simp only [ne_eq, Option.some.injEq, JsNumber.finite.injEq]
    norm_num [circumference]
  · rw [h2]
    simp only [ne_eq, Option.some.injEq, JsNumber.finite.injEq]
    norm_num [circumference]

/-- C12, refuted beyond the whole numbers that the double arithmetic treats
exactly. `10 ^ 19` and `6 * 10 ^ 22` are whole numbers that doubles hold. At
`10 ^ 19` seconds the minutes shown are `166666666666666660`, while
`floor(t / 60)` is `166666666666666666`; at `6 * 10 ^ 22` seconds the text is
`1e+21:00`, which is not a string of digits. -/
theorem timer_text_inexact_for_huge_timeLeft :
    toDouble (10 ^ 19) = 10 ^ 19 ∧
    (InterviewManager.updateTimerDisplay { timeLeft := 10 ^ 19 }).timerDisplay
      = "166666666666666660:40".toList ∧
    10 ^ 19 / 60 = 166666666666666666 ∧
    (InterviewManager.updateTimerDisplay { timeLeft := 10 ^ 19 }).timerDisplay
      ≠ padStart (decimalDigits (10 ^ 19 / 60)) 2 '0' ++ [':'] ++
          padStart (decimalDigits (10 ^ 19 % 60)) 2 '0' ∧
    toDouble (6 * 10 ^ 22) = 6 * 10 ^ 22 ∧
    (InterviewManager.updateTimerDisplay { timeLeft := 6 * 10 ^ 22 }).timerDisplay
      = "1e+21:00".toList ∧
    (InterviewManager.updateTimerDisplay { timeLeft := 6 * 10 ^ 22 }).timerDisplay
      ≠ padStart (decimalDigits (6 * 10 ^ 22 / 60)) 2 '0' ++ [':'] ++
          padStart (decimalDigits (6 * 10 ^ 22 % 60)) 2 '0' := by
  decide

/-- C12 as amended: for every `timeLeft` of at most `2 ^ 53`,
`updateTimerDisplay` changes the timer text only, to the minutes
`timeLeft / 60` in decimal, padded with `0` to at least two digits, then `:`,
then the seconds `timeLeft % 60`, which are below 60, as exactly two digits.
Both parts are made of decimal digits and read back as the numbers they stand
for. When `timeLeft < 6000` the text has exactly five characters, the third is
`:`, and `60 * MM + SS` read from it is `timeLeft`. -/
theorem updateTimerDisplay_renders_minutes_and_seconds (m : InterviewManager)
    (hsafe : m.timeLeft ≤ 2 ^ 53) :
    m.updateTimerDisplay = { m with
      timerDisplay := padStart (decimalDigits (m.timeLeft / 60)) 2 '0' ++ [':'] ++
        padStart (decimalDigits (m.timeLeft % 60)) 2 '0' } ∧
    2 ≤ (padStart (decimalDigits (m.timeLeft / 60)) 2 '0').length ∧
    (∀ c ∈ padStart (decimalDigits (m.timeLeft / 60)) 2 '0', c.isDigit = true) ∧
    readDecimal (padStart (decimalDigits (m.timeLeft / 60)) 2 '0') = m.timeLeft / 60 ∧
    (padStart (decimalDigits (m.timeLeft % 60)) 2 '0').length = 2 ∧
    (∀ c ∈ padStart (decimalDigits (m.timeLeft % 60)) 2 '0', c.isDigit = true) ∧
    readDecimal (padStart (decimalDigits (m.timeLeft % 60)) 2 '0') = m.timeLeft % 60 ∧
    m.timeLeft % 60 < 60 ∧
    (m.timeLeft < 6000 →
      m.updateTimerDisplay.timerDisplay.length = 5 ∧
      m.updateTimerDisplay.timerDisplay.get? 2 = some ':' ∧
      60 * readDecimal (m.updateTimerDisplay.timerDisplay.take 2)
        + readDecimal (m.updateTimerDisplay.timerDisplay.drop 3) = m.timeLeft) := by
  have hpow : (2 : Nat) ^ 53 = 9007199254740992 := by decide
  have hupd : m.updateTimerDisplay = { m with
      timerDisplay := padStart (decimalDigits (m.timeLeft / 60)) 2 '0' ++ [':'] ++
        padStart (decimalDigits (m.timeLeft % 60)) 2 '0' } := by
    unfold InterviewManager.updateTimerDisplay
    simp only [floorOfQuotient_of_le m.timeLeft hsafe]
    rw [numberToString_of_lt (m.timeLeft / 60) (by omega),
      numberToString_of_lt (m.timeLeft % 60) (by omega)]
  have hsec : (padStart (decimalDigits (m.timeLeft % 60)) 2 '0').length = 2 := by
    have hle := decimalDigits_length_le (m.timeLeft % 60) 2 (by omega) (by decide)
    rw [padStart_length]
    omega
  refine ⟨hupd, ?_, isDigit_padStart_decimalDigits _ _, ?_, hsec,
    isDigit_padStart_decimalDigits _ _, ?_, Nat.mod_lt _ (by decide), ?_⟩
  · rw [padStart_length]
    omega
  · rw [readDecimal_padStart, readDecimal_decimalDigits]
  · rw [readDecimal_padStart, readDecimal_decimalDigits]
  · intro ht
    have hmin : (padStart (decimalDigits (m.timeLeft / 60)) 2 '0').length = 2 := by
      have hle := decimalDigits_length_le (m.timeLeft / 60) 2 (by omega) (by decide)
      rw [padStart_length]
      omega
    have htext : m.updateTimerDisplay.timerDisplay
        = padStart (decimalDigits (m.timeLeft / 60)) 2 '0' ++
          ([':'] ++ padStart (decimalDigits (m.timeLeft % 60)) 2 '0') := by
      rw [hupd]
      show _ ++ [':'] ++ _ = _
      rw [List.append_assoc]
    refine ⟨?_, ?_, ?_⟩
    · rw [htext, List.length_append, List.length_append, hmin, hsec]
      rfl
    · rw [htext, List.get?_eq_getElem?, List.getElem?_append_right (by rw [hmin]), hmin]
      simp
    · rw [htext, List.take_left' hmin,
        show (3 : Nat) = (padStart (decimalDigits (m.timeLeft / 60)) 2 '0').length + 1 by
          rw [hmin],
        List.drop_append, List.drop_one, List.singleton_append, List.tail_cons,
        readDecimal_padStart, readDecimal_decimalDigits,
        readDecimal_padStart, readDecimal_decimalDigits]
      omega

/-- C12 as amended, at a concrete input: 75 seconds are shown as `01:15`. -/
theorem updateTimerDisplay_renders_minutes_and_seconds_witness :
    (InterviewManager.updateTimerDisplay { timeLeft := 75 }).timerDisplay = "01:15".toList ∧
    60 * readDecimal ((InterviewManager.updateTimerDisplay { timeLeft := 75 }).timerDisplay.take 2)
      + readDecimal ((InterviewManager.updateTimerDisplay { timeLeft := 75 }).timerDisplay.drop 3)
      = 75 :=
  ⟨by decide,
    ((updateTimerDisplay_renders_minutes_and_seconds { timeLeft := 75 }
      (by decide)).2.2.2.2.2.2.2.2 (by decide)).2.2⟩

/-! ## Replies of the two services -/

/-- C13, the code at the failing input: in the sample session the user asks
for the next question and the request fails in transport. `nextQuestion` has
already advanced `currentQuestionIndex` from 0 to 1 and the failure does not
take that back, in any state; everything else is as before the call, and a
failed request of `loadQuestions` changes nothing at all. -/
theorem nextQuestion_failure_keeps_advanced_index :
    (sampleSession 60).currentQuestionIndex = 0 ∧
    (InterviewManager.nextQuestionReply id (sampleSession 60).nextQuestion
      .failed).currentQuestionIndex = 1 ∧
    (∀ (toUpperCase : JsString → JsString) (m : InterviewManager),
      InterviewManager.nextQuestionReply toUpperCase m.nextQuestion .failed
        = { m with currentQuestionIndex := m.currentQuestionIndex + 1
                   effects := m.effects ++ [.fetchNextQuestion] } ∧
      InterviewManager.loadQuestionsReply toUpperCase m.loadQuestions .failed
        = { m with effects := m.effects ++ [.fetchNextQuestion] }) := by
  refine ⟨by decide, by decide, ?_⟩
  intro toUpperCase m
  exact ⟨rfl, rfl⟩

/-- C14, refuted: the sample session is submitted and the response carries a
status other than `'success'`. The continuation shows no dialog at all, so no
error reaches the user; it only re-enables the submit control. -/
theorem submitAnswer_other_status_is_silent :
    (InterviewManager.submitAnswerReply (InterviewManager.clickSubmit (sampleSession 60))
      .otherStatus).effects = (InterviewManager.clickSubmit (sampleSession 60)).effects ∧
    (∀ message, Effect.alert message ∉
      (InterviewManager.submitAnswerReply (InterviewManager.clickSubmit (sampleSession 60))
        .otherStatus).effects) ∧
    (InterviewManager.submitAnswerReply (InterviewManager.clickSubmit (sampleSession 60))
      .otherStatus).submitBtn.disabled = false := by
  refine ⟨rfl, ?_, rfl⟩
  intro message
  have he : (InterviewManager.submitAnswerReply (InterviewManager.clickSubmit (sampleSession 60))
      .otherStatus).effects
      = [.fetchNextQuestion, .setInterval 0 1000, .clearInterval 0,
         .fetchAnalyzeAnswer { question_id := "7".toList, answer_text := ['a'],
                               transcript := [], duration := 60 }] := by
    decide
  rw [he]
  simp

/-- C14 as amended: when the analyze-answer request throws, the continuation of
`submitAnswer` shows the `Error submitting answer` notice and leaves the
feedback as it was; when the response carries a status other than `'success'`
it shows neither a notice nor feedback; on a `'success'` response the feedback
text is written and the feedback area is shown. In all three cases it ends with
the submit control enabled and labelled `Submit Answer`, and it changes nothing
else. -/
theorem submitAnswerReply_outcomes (m : InterviewManager) (analysis : Analysis)
    (next_question_available : Bool) :
    m.submitAnswerReply .failed
      = { m with
          effects := m.effects ++ [.alert "Error submitting answer. Please try again.".toList]
          submitBtn := { disabled := false,
                         innerHTML :=
                          "<i class=\"fas fa-paper-plane mr-2\"></i> Submit Answer".toList } } ∧
    m.submitAnswerReply .otherStatus
      = { m with
          submitBtn := { disabled := false,
                         innerHTML :=
                          "<i class=\"fas fa-paper-plane mr-2\"></i> Submit Answer".toList } } ∧
    (m.submitAnswerReply (.success analysis next_question_available)).feedbackAreaHidden
      = false ∧
    (m.submitAnswerReply (.success analysis next_question_available)).feedbackContent
      = feedbackHTML analysis ∧
    (m.submitAnswerReply (.success analysis next_question_available)).effects = m.effects ∧
    (m.submitAnswerReply (.success analysis next_question_available)).submitBtn
      = { disabled := false,
          innerHTML := "<i class=\"fas fa-paper-plane mr-2\"></i> Submit Answer".toList } := by
  refine ⟨rfl, rfl, ?_, ?_, ?_, ?_⟩ <;>
    cases next_question_available <;> rfl

/-- C17: after `onresult` has handled an event, `interimTranscript` is the
concatenation, in order, of the transcripts of the event's entries from
`resultIndex` onward that are not final, whatever it held before; and
`finalTranscript` is its former value followed, for each final entry in order,
by the entry's transcript and one separator. -/
theorem onresult_replaces_interim_appends_final (m : SpeechRecognitionManager)
    (event : SpeechRecognitionEvent) :
    (m.onresult event).interimTranscript
      = ((event.results.drop event.resultIndex).filter (fun r => !r.isFinal)).flatMap
          (·.transcript) ∧
    (m.onresult event).finalTranscript
      = m.finalTranscript ++
          ((event.results.drop event.resultIndex).filter (·.isFinal)).flatMap
            (fun r => r.transcript ++ separator) := by
  have hdisp : ∀ s : SpeechRecognitionManager,
      s.updateTranscriptDisplay.interimTranscript = s.interimTranscript := by
    intro s
    unfold SpeechRecognitionManager.updateTranscriptDisplay
    cases s.transcriptDisplay <;> rfl
  have hfold : ∀ (items : List SpeechRecognitionResult) (s : SpeechRecognitionManager),
      (items.foldl SpeechRecognitionManager.onresultItem s).interimTranscript
        = s.interimTranscript ++ (items.filter (fun r => !r.isFinal)).flatMap (·.transcript) := by
    intro items
    induction items with
    | nil => intro s; simp
    | cons r items ih =>
      intro s
      rw [List.foldl_cons, ih]
      cases hr : r.isFinal <;>
        simp [SpeechRecognitionManager.onresultItem, hr]
  constructor
  · unfold SpeechRecognitionManager.onresult
    simp only [hdisp, hfold, List.nil_append]
  · rw [SpeechRecognitionManager.onresult_finalTranscript]
    simp [deliveredFinals, List.flatMap_map]

/-- C20, refuted: in the sample session the countdown of the constructor is
running; after a confirmed skip `timerInterval` still holds its handle, the
interval is still set, and its next firing decrements `timeLeft`. -/
theorem skipQuestion_leaves_countdown_running :
    (sampleSession 60).timerInterval = some 0 ∧
    (InterviewManager.skipQuestion true (sampleSession 60)).timerInterval = some 0 ∧
    (InterviewManager.skipQuestion true (sampleSession 60)).activeTimers.lookup 0 = some 120 ∧
    (InterviewManager.skipQuestion true (sampleSession 60)).timeLeft = 60 ∧
    (InterviewManager.tick 0 (InterviewManager.skipQuestion true (sampleSession 60))).timeLeft
      = 59 ∧
    (∀ handle, Effect.clearInterval handle ∉
      (InterviewManager.skipQuestion true (sampleSession 60)).effects) := by
  refine ⟨by decide, by decide, by decide, by decide, by decide, ?_⟩
  intro handle
  have he : (InterviewManager.skipQuestion true (sampleSession 60)).effects
      = [.fetchNextQuestion, .setInterval 0 1000, .confirm "Skip this question?".toList,
         .fetchNextQuestion] := by
    decide
  rw [he]
  simp

/-- C20 as amended: `skipQuestion` asks for a confirmation. When the user
declines, nothing but the dialog happens: no state changes and no request is
issued. When the user confirms, `currentQuestionIndex` advances by one and
exactly one next-question request is issued; no analyze-answer request is
issued, and the countdown is left as it was, running if it was running. -/
theorem skipQuestion_outcomes (m : InterviewManager) :
    InterviewManager.skipQuestion false m
      = { m with effects := m.effects ++ [.confirm "Skip this question?".toList] } ∧
    nextQuestionRequests (InterviewManager.skipQuestion false m).effects
      = nextQuestionRequests m.effects ∧
    analyzeRequests (InterviewManager.skipQuestion false m).effects
      = analyzeRequests m.effects ∧
    InterviewManager.skipQuestion true m
      = { m with
          currentQuestionIndex := m.currentQuestionIndex + 1
          effects := m.effects ++ [.confirm "Skip this question?".toList] ++
            [.fetchNextQuestion] } ∧
    nextQuestionRequests (InterviewManager.skipQuestion true m).effects
      = nextQuestionRequests m.effects + 1 ∧
    analyzeRequests (InterviewManager.skipQuestion true m).effects
      = analyzeRequests m.effects ∧
    (InterviewManager.skipQuestion true m).timerInterval = m.timerInterval ∧
    (InterviewManager.skipQuestion true m).activeTimers = m.activeTimers ∧
    (InterviewManager.skipQuestion true m).timeLeft = m.timeLeft := by
  refine ⟨rfl, ?_, ?_, rfl, ?_, ?_, rfl, rfl, rfl⟩
  · simp [InterviewManager.skipQuestion, nextQuestionRequests, List.count_append]
  · simp [InterviewManager.skipQuestion, analyzeRequests, List.filterMap_append]
  · simp [InterviewManager.skipQuestion, InterviewManager.nextQuestion, nextQuestionRequests,
      List.count_append]
  · simp [InterviewManager.skipQuestion, InterviewManager.nextQuestion, analyzeRequests,
      List.filterMap_append]

/-! ## The end of a capture run -/

namespace SpeechRecognitionManager

theorem updateStatusIndicator_frame (color text : JsString) (m : SpeechRecognitionManager) :
    (updateStatusIndicator color text m).finalTranscript = m.finalTranscript ∧
    (updateStatusIndicator color text m).effects = m.effects := by
  unfold updateStatusIndicator
  cases m.speechStatus <;> exact ⟨rfl, rfl⟩

theorem updateUI_frame (m : SpeechRecognitionManager) :
    (updateUI m).finalTranscript = m.finalTranscript ∧ (updateUI m).effects = m.effects := by
  unfold updateUI
  cases m.speechButton with
  | none => exact ⟨rfl, rfl⟩
  | some button =>
    cases m.isListening <;>
      simp only [Bool.false_eq_true, if_false, if_true, updateStatusIndicator_frame, and_self]

theorem onend_finalTranscript (m : SpeechRecognitionManager) (answerText : Option JsString) :
    (m.onend answerText).1.finalTranscript = m.finalTranscript := by
  have h : (sendSpeechStatus false (updateUI { m with isListening := false })).finalTranscript
      = m.finalTranscript := (updateUI_frame _).1
  unfold onend
  cases answerText with
  | none => exact h
  | some c =>
    simp only
    split <;> exact h

theorem onend_value (m : SpeechRecognitionManager) (c : JsString) :
    (m.onend (some c)).2
      = if jsTrim m.finalTranscript ≠ [] then
          some (if c ≠ [] then c ++ [' '] ++ jsTrim m.finalTranscript
                else jsTrim m.finalTranscript)
        else some c := by
  have h : (sendSpeechStatus false (updateUI { m with isListening := false })).finalTranscript
      = m.finalTranscript := (updateUI_frame _).1
  unfold onend
  simp only [h]
  split <;> rfl

theorem onstart_finalTranscript (m : SpeechRecognitionManager) :
    m.onstart.finalTranscript = m.finalTranscript :=
  (updateUI_frame _).1

theorem startReply_finalTranscript (granted startThrows : Bool) (m : SpeechRecognitionManager) :
    (m.startReply granted startThrows).finalTranscript = m.finalTranscript := by
  unfold startReply
  cases granted <;> cases startThrows <;> rfl

end SpeechRecognitionManager

/-- C15: on the end-of-capture event, with `s` the trim of `finalTranscript`
and `c` the text already in the answer text area: the text stays `c` when `s`
is empty; it becomes `s` when `s` is not empty and `c` is; it becomes
`c + " " + s` when neither is empty. In every case the new text starts with
`c`. A page without the text area has none afterwards either. -/
theorem onend_appends_transcript_to_answer (m : SpeechRecognitionManager) (c : JsString) :
    (jsTrim m.finalTranscript = [] → (m.onend (some c)).2 = some c) ∧
    (jsTrim m.finalTranscript ≠ [] → c = [] →
      (m.onend (some c)).2 = some (jsTrim m.finalTranscript)) ∧
    (jsTrim m.finalTranscript ≠ [] → c ≠ [] →
      (m.onend (some c)).2 = some (c ++ [' '] ++ jsTrim m.finalTranscript)) ∧
    (∃ rest, (m.onend (some c)).2 = some (c ++ rest)) ∧
    (m.onend none).2 = none := by
  have hv := SpeechRecognitionManager.onend_value m c
  refine ⟨?_, ?_, ?_, ?_, ?_⟩
  · intro hs
    rw [hv]
    simp [hs]
  · intro hs hc
    rw [hv]
    simp [hs, hc]
  · intro hs hc
    rw [hv]
    simp [hs, hc]
  · rw [hv]
    by_cases hs : jsTrim m.finalTranscript = []
    · exact ⟨[], by simp [hs]⟩
    · by_cases hc : c = []
      · exact ⟨jsTrim m.finalTranscript, by simp [hs, hc]⟩
      · exact ⟨[' '] ++ jsTrim m.finalTranscript, by simp [hs, hc]⟩
  · rfl

/-- C15 at concrete inputs: the spoken `hello world` is appended to the typed
`Typed`, and replaces an empty text. -/
theorem onend_appends_transcript_to_answer_witness :
    (SpeechRecognitionManager.onend { finalTranscript := "hello world ".toList }
      (some "Typed".toList)).2 = some "Typed hello world".toList ∧
    (SpeechRecognitionManager.onend { finalTranscript := "hello world ".toList }
      (some [])).2 = some "hello world".toList := by
  have h := onend_appends_transcript_to_answer { finalTranscript := "hello world ".toList }
    "Typed".toList
  have h2 := onend_appends_transcript_to_answer { finalTranscript := "hello world ".toList } []
  refine ⟨?_, ?_⟩
  · rw [h.2.2.1 (by decide) (by decide)]
    decide
  · rw [h2.2.1 (by decide) rfl]
    decide

/-- C16: on a manager that has a recognition object, whatever its transcripts
were, `start()` followed by the end-of-capture event with no result event in
between leaves `getTranscript()` empty and the typed answer text `t` as it
was. The same holds when the permission reply and the start-of-capture event
come in between. -/
theorem start_then_end_keeps_typed_answer (m : SpeechRecognitionManager) (t : JsString)
    (granted startThrows : Bool) (hrec : m.recognition = true) :
    (m.start.onend (some t)).1.getTranscript = [] ∧
    (m.start.onend (some t)).2 = some t ∧
    (((m.start.startReply granted startThrows).onstart).onend (some t)).1.getTranscript = [] ∧
    (((m.start.startReply granted startThrows).onstart).onend (some t)).2 = some t := by
  have hs := SpeechRecognitionManager.start_finalTranscript m hrec
  have hs2 : ((m.start.startReply granted startThrows).onstart).finalTranscript = [] := by
    rw [SpeechRecognitionManager.onstart_finalTranscript,
      SpeechRecognitionManager.startReply_finalTranscript, hs]
  refine ⟨?_, ?_, ?_, ?_⟩
  · unfold SpeechRecognitionManager.getTranscript
    rw [SpeechRecognitionManager.onend_finalTranscript, hs]
    rfl
  · rw [SpeechRecognitionManager.onend_value, hs]
    rfl
  · unfold SpeechRecognitionManager.getTranscript
    rw [SpeechRecognitionManager.onend_finalTranscript, hs2]
    rfl
  · rw [SpeechRecognitionManager.onend_value, hs2]
    rfl

/-- C16 at a concrete input: an earlier run left `old words `, the user has
typed `Typed`. -/
theorem start_then_end_keeps_typed_answer_witness :
    ((SpeechRecognitionManager.start
        { recognition := true, finalTranscript := "old words ".toList }).onend
      (some "Typed".toList)).1.getTranscript = [] ∧
    ((SpeechRecognitionManager.start
        { recognition := true, finalTranscript := "old words ".toList }).onend
      (some "Typed".toList)).2 = some "Typed".toList :=
  ⟨(start_then_end_keeps_typed_answer
      { recognition := true, finalTranscript := "old words ".toList } "Typed".toList
      true false rfl).1,
    (start_then_end_keeps_typed_answer
      { recognition := true, finalTranscript := "old words ".toList } "Typed".toList
      true false rfl).2.1⟩

/-- C18: `clearTranscript()`, from every state, empties `finalTranscript` and
`interimTranscript`, puts the empty-transcript placeholder in the transcript
display (when the page has one) and changes nothing else: `isListening`,
`isSupported`, the recognition object, the speech control and the effects are
as before, so `recognition.stop()` is not called. -/
theorem clearTranscript_resets_text_only (m : SpeechRecognitionManager) :
    m.clearTranscript
      = { m with
          finalTranscript := []
          interimTranscript := []
          transcriptDisplay := m.transcriptDisplay.map fun _ => emptyTranscriptPlaceholder } ∧
    m.clearTranscript.finalTranscript = [] ∧
    m.clearTranscript.interimTranscript = [] ∧
    m.clearTranscript.isListening = m.isListening ∧
    m.clearTranscript.isSupported = m.isSupported ∧
    m.clearTranscript.recognition = m.recognition ∧
    m.clearTranscript.effects = m.effects ∧
    SpeechEffect.recognitionStop ∉ (m.clearTranscript.effects.drop m.effects.length) := by
  have h : m.clearTranscript
      = { m with
          finalTranscript := []
          interimTranscript := []
          transcriptDisplay := m.transcriptDisplay.map fun _ => emptyTranscriptPlaceholder } := by
    unfold SpeechRecognitionManager.clearTranscript
      SpeechRecognitionManager.updateTranscriptDisplay
    cases hd : m.transcriptDisplay with
    | none => simp [hd]
    | some d =>
      simp only [hd, ne_eq, not_true_eq_false, if_false, jsTrim_nil, if_true, Option.map_some']
      rfl
  refine ⟨h, ?_, ?_, ?_, ?_, ?_, ?_, ?_⟩ <;> rw [h]
  simp

/-! ## The next control after feedback -/

/-- C19, the code at the failing input: the sample session is submitted and the
response says that no next question is available. A click on the next control
then runs the listener `nextQuestion` as well as the `onclick` handler:
`currentQuestionIndex` advances from 0 to 1 and a second next-question request
is issued before the location is set to `/coding-test`. After feedback with a
next question available, in a session where no earlier feedback installed the
handler, the click is `nextQuestion` alone and sets no location; an installed
handler is not removed by later feedback. -/
theorem next_control_still_loads_question_when_none_available :
    (sampleFeedbackShown false).currentQuestionIndex = 0 ∧
    nextQuestionRequests (sampleFeedbackShown false).effects = 1 ∧
    (sampleFeedbackShown false).nextBtn.onclick = some "/coding-test".toList ∧
    (sampleFeedbackShown false).clickNextQuestionBtn.currentQuestionIndex = 1 ∧
    nextQuestionRequests (sampleFeedbackShown false).clickNextQuestionBtn.effects = 2 ∧
    navigations (sampleFeedbackShown false).clickNextQuestionBtn.effects
      = ["/coding-test".toList] ∧
    (sampleFeedbackShown true).clickNextQuestionBtn = (sampleFeedbackShown true).nextQuestion ∧
    navigations (sampleFeedbackShown true).clickNextQuestionBtn.effects = [] ∧
    (∀ (m : InterviewManager) (a b : Analysis),
      ((m.displayFeedback a false).displayFeedback b true).nextBtn.onclick
        = some "/coding-test".toList) := by
  have hnone : (sampleFeedbackShown true).nextQuestion.nextBtn.onclick = none := by decide
  have hclick : (sampleFeedbackShown true).clickNextQuestionBtn
      = (sampleFeedbackShown true).nextQuestion := by
    simp only [InterviewManager.clickNextQuestionBtn, hnone]
  refine ⟨by decide, by decide, by decide, by decide, by decide, by decide, hclick, ?_, ?_⟩
  · rw [hclick]
    decide
  · intro m a b
    rfl

/-! ## Lemmas on the live intervals -/

theorem liveIntervals_append (a b : List Effect) :
    liveIntervals (a ++ b) = b.foldl liveStep (liveIntervals a) := by
  simp [liveIntervals, List.foldl_append]

namespace InterviewManager

theorem stopTimer_live (m : InterviewManager)
    (h1 : m.activeTimers.map (·.1) = m.timerInterval.toList)
    (h2 : liveIntervals m.effects = m.timerInterval.toList) :
    m.stopTimer.timerInterval = none ∧ m.stopTimer.activeTimers = [] ∧
    liveIntervals m.stopTimer.effects = [] := by
  cases hti : m.timerInterval with
  | none =>
    rw [hti] at h1 h2
    rw [stopTimer_of_none m hti]
    exact ⟨hti, by simpa using h1, h2⟩
  | some h =>
    rw [hti] at h1 h2
    simp only [Option.toList] at h1 h2
    refine ⟨stopTimer_timerInterval m, ?_, ?_⟩
    · simp only [stopTimer, hti]
      rw [List.filter_eq_nil_iff]
      intro t ht
      have hmem : t.1 ∈ m.activeTimers.map (·.1) := List.mem_map_of_mem _ ht
      rw [h1] at hmem
      simpa using hmem
    · simp only [stopTimer, hti, liveIntervals_append, h2]
      simp [liveStep]

theorem startTimer_live (m : InterviewManager)
    (h1 : m.activeTimers.map (·.1) = m.timerInterval.toList)
    (h2 : liveIntervals m.effects = m.timerInterval.toList) :
    m.startTimer.activeTimers.map (·.1) = m.startTimer.timerInterval.toList ∧
    liveIntervals m.startTimer.effects = m.startTimer.timerInterval.toList := by
  obtain ⟨_, s2, s3⟩ := stopTimer_live m h1 h2
  unfold startTimer
  simp only [s2, liveIntervals_append, s3]
  simp [liveStep]

theorem submitAnswer_live (m : InterviewManager)
    (h1 : m.activeTimers.map (·.1) = m.timerInterval.toList)
    (h2 : liveIntervals m.effects = m.timerInterval.toList) :
    m.submitAnswer.activeTimers.map (·.1) = m.submitAnswer.timerInterval.toList ∧
    liveIntervals m.submitAnswer.effects = m.submitAnswer.timerInterval.toList := by
  obtain ⟨_, s2, s3⟩ := stopTimer_live m h1 h2
  rw [submitAnswer_timerInterval, submitAnswer_activeTimers, s2]
  refine ⟨rfl, ?_⟩
  simp only [submitAnswer]
  split <;> simp only [liveIntervals_append, s3] <;> rfl

theorem tick_live (handle : Nat) (m : InterviewManager)
    (h1 : m.activeTimers.map (·.1) = m.timerInterval.toList)
    (h2 : liveIntervals m.effects = m.timerInterval.toList) :
    (tick handle m).activeTimers.map (·.1) = (tick handle m).timerInterval.toList ∧
    liveIntervals (tick handle m).effects = (tick handle m).timerInterval.toList := by
  unfold tick
  cases hl : m.activeTimers.lookup handle with
  | none => exact ⟨h1, h2⟩
  | some T =>
    simp only [timerCallback]
    split
    · have hs := stopTimer_live m h1 h2
      exact submitAnswer_live m.stopTimer (by rw [hs.2.1, hs.1]; rfl) (by rw [hs.2.2, hs.1]; rfl)
    · exact ⟨h1, h2⟩

theorem applyOp_live (toUpperCase : JsString → JsString) (op : TimerOp) (m : InterviewManager)
    (h1 : m.activeTimers.map (·.1) = m.timerInterval.toList)
    (h2 : liveIntervals m.effects = m.timerInterval.toList) :
    (applyOp toUpperCase m op).activeTimers.map (·.1)
      = (applyOp toUpperCase m op).timerInterval.toList ∧
    liveIntervals (applyOp toUpperCase m op).effects
      = (applyOp toUpperCase m op).timerInterval.toList := by
  cases op with
  | startTimer => exact startTimer_live m h1 h2
  | stopTimer =>
    obtain ⟨s1, s2, s3⟩ := stopTimer_live m h1 h2
    show m.stopTimer.activeTimers.map (·.1) = m.stopTimer.timerInterval.toList ∧
      liveIntervals m.stopTimer.effects = m.stopTimer.timerInterval.toList
    rw [s1, s2, s3]
    exact ⟨rfl, rfl⟩
  | tick handle => exact tick_live handle m h1 h2
  | submitAnswer => exact submitAnswer_live m h1 h2
  | displayQuestion question => exact ⟨h1, h2⟩

theorem runOps_live (toUpperCase : JsString → JsString) (ops : List TimerOp)
    (m : InterviewManager)
    (h1 : m.activeTimers.map (·.1) = m.timerInterval.toList)
    (h2 : liveIntervals m.effects = m.timerInterval.toList) :
    (runOps toUpperCase ops m).activeTimers.map (·.1)
      = (runOps toUpperCase ops m).timerInterval.toList ∧
    liveIntervals (runOps toUpperCase ops m).effects
      = (runOps toUpperCase ops m).timerInterval.toList := by
  induction ops generalizing m with
  | nil => exact ⟨h1, h2⟩
  | cons op ops ih =>
    obtain ⟨a1, a2⟩ := applyOp_live toUpperCase op m h1 h2
    exact ih (applyOp toUpperCase m op) a1 a2

theorem construct_live (page : InterviewManager) (hT : page.activeTimers = [])
    (hE : page.effects = []) :
    (construct page).activeTimers.map (·.1) = (construct page).timerInterval.toList ∧
    liveIntervals (construct page).effects = (construct page).timerInterval.toList := by
  unfold construct init
  apply startTimer_live
  · simp [loadQuestions, hT]
  · simp [loadQuestions, hE, liveIntervals, liveStep]

end InterviewManager

/-! ## One countdown at a time, and the question counter -/

/-- C21: from a manager constructed on a page without timers, after every
sequence of `startTimer`, `stopTimer`, interval firings, `submitAnswer` and
`displayQuestion`, the intervals that are set and not cleared, whether read
from the host's timer list or from the `setInterval` / `clearInterval` effects,
are exactly the handle held by `timerInterval`: there are 0 or 1 of them, and
1 exactly when `timerInterval` is not null. `stopTimer` on a stopped timer
changes nothing, and `startTimer` clears the interval it holds before setting
the new one. -/
theorem at_most_one_interval_live (toUpperCase : JsString → JsString)
    (page : InterviewManager) (ops : List TimerOp)
    (hT : page.activeTimers = []) (hE : page.effects = []) :
    (InterviewManager.runOps toUpperCase ops page.construct).activeTimers.length ≤ 1 ∧
    ((InterviewManager.runOps toUpperCase ops page.construct).activeTimers.length = 1 ↔
      (InterviewManager.runOps toUpperCase ops page.construct).timerInterval ≠ none) ∧
    (InterviewManager.runOps toUpperCase ops page.construct).activeTimers.map (·.1)
      = (InterviewManager.runOps toUpperCase ops page.construct).timerInterval.toList ∧
    liveIntervals (InterviewManager.runOps toUpperCase ops page.construct).effects
      = (InterviewManager.runOps toUpperCase ops page.construct).timerInterval.toList ∧
    (∀ m : InterviewManager, m.timerInterval = none → m.stopTimer = m) ∧
    (∀ m : InterviewManager, m.startTimer.effects
      = m.effects ++ m.timerInterval.toList.map Effect.clearInterval ++
          [.setInterval m.nextTimerHandle 1000]) := by
  obtain ⟨c1, c2⟩ := InterviewManager.construct_live page hT hE
  obtain ⟨r1, r2⟩ := InterviewManager.runOps_live toUpperCase ops page.construct c1 c2
  have hlen : (InterviewManager.runOps toUpperCase ops page.construct).activeTimers.length
      = (InterviewManager.runOps toUpperCase ops page.construct).timerInterval.toList.length := by
    rw [← r1, List.length_map]
  refine ⟨?_, ?_, r1, r2, InterviewManager.stopTimer_of_none, ?_⟩
  · rw [hlen]
    cases (InterviewManager.runOps toUpperCase ops page.construct).timerInterval <;> simp
  · rw [hlen]
    cases (InterviewManager.runOps toUpperCase ops page.construct).timerInterval <;> simp
  · intro m
    cases hti : m.timerInterval <;>
      simp [InterviewManager.startTimer, InterviewManager.stopTimer, hti]

/-- C21 at a concrete run: the countdown fires, is stopped, started twice,
fires, the answer is submitted, the countdown is started again and a question
is displayed; one interval, the last one set, is live. -/
theorem at_most_one_interval_live_witness :
    liveIntervals (InterviewManager.runOps id
      [.tick 0, .stopTimer, .startTimer, .startTimer, .tick 2, .submitAnswer, .startTimer,
        .displayQuestion sampleQuestion] (InterviewManager.construct {})).effects
      = (InterviewManager.runOps id
      [.tick 0, .stopTimer, .startTimer, .startTimer, .tick 2, .submitAnswer, .startTimer,
        .displayQuestion sampleQuestion] (InterviewManager.construct {})).timerInterval.toList ∧
    (InterviewManager.runOps id
      [.tick 0, .stopTimer, .startTimer, .startTimer, .tick 2, .submitAnswer, .startTimer,
        .displayQuestion sampleQuestion] (InterviewManager.construct {})).timerInterval
      = some 3 :=
  ⟨(at_most_one_interval_live id {}
      [.tick 0, .stopTimer, .startTimer, .startTimer, .tick 2, .submitAnswer, .startTimer,
        .displayQuestion sampleQuestion] rfl rfl).2.2.2.1,
    by decide⟩

/-- C22, the code at the failing input: the first question, loaded by
`loadQuestions` on a fresh manager, is shown with the counter
`Question 1 of 0` although one question is loaded; the second, loaded by
`nextQuestion`, with `Question 2 of 1` although two are. In every state the
counter is written from `questions.length` before the displayed question is
pushed, so the number shown after `of` is one less than the number of questions
loaded, the displayed one included. -/
theorem question_counter_omits_displayed_question :
    (InterviewManager.loadQuestionsReply id (InterviewManager.construct {})
      (.success sampleQuestion)).questionCounter = "Question 1 of 0".toList ∧
    (InterviewManager.loadQuestionsReply id (InterviewManager.construct {})
      (.success sampleQuestion)).questions.length = 1 ∧
    (InterviewManager.nextQuestionReply id
      (InterviewManager.loadQuestionsReply id (InterviewManager.construct {})
        (.success sampleQuestion)).nextQuestion
      (.success sampleQuestion)).questionCounter = "Question 2 of 1".toList ∧
    (InterviewManager.nextQuestionReply id
      (InterviewManager.loadQuestionsReply id (InterviewManager.construct {})
        (.success sampleQuestion)).nextQuestion
      (.success sampleQuestion)).questions.length = 2 ∧
    (∀ (toUpperCase : JsString → JsString) (m : InterviewManager) (q : Question),
      (InterviewManager.loadQuestionsReply toUpperCase m (.success q)).questionCounter
        = "Question ".toList ++ numberToString (m.currentQuestionIndex + 1) ++ " of ".toList
            ++ numberToString m.questions.length ∧
      (InterviewManager.loadQuestionsReply toUpperCase m (.success q)).questions.length
        = m.questions.length + 1 ∧
      (InterviewManager.nextQuestionReply toUpperCase m (.success q)).questionCounter
        = "Question ".toList ++ numberToString (m.currentQuestionIndex + 1) ++ " of ".toList
            ++ numberToString m.questions.length ∧
      (InterviewManager.nextQuestionReply toUpperCase m (.success q)).questions.length
        = m.questions.length + 1) := by
  refine ⟨by decide, by decide, by decide, by decide, ?_⟩
  intro toUpperCase m q
  have hq : (InterviewManager.displayQuestion toUpperCase m q).questions = m.questions := rfl
  refine ⟨rfl, ?_, rfl, ?_⟩
  · show ((InterviewManager.displayQuestion toUpperCase m q).questions ++ [q]).length = _
    rw [hq, List.length_append]
    rfl
  · show ((InterviewManager.displayQuestion toUpperCase m q).questions ++ [q]).length = _
    rw [hq, List.length_append]
    rfl

end InterviewPlatform
